import Mathlib

/-!
Verification of the http_based_ftp_server_batch-downloader core against its
specification.  The Python modules `core/downloader.py`, `core/cache_manager.py`,
`core/utils.py`, `core/lister.py` and `src/core/lister.py` are shallowly embedded:
pure computations become Lean functions, the mutable manager/cache state becomes
explicit state passing, the network and the file system become explicit
parameters (a function giving each URL's response, an association list of disk
files).  Machine integers are modelled by `Nat`/`Int` (no overflow is relevant:
Python integers are unbounded).
-/

/-- Association-list lookup keyed on the first component (models Python
`dict` lookup / `in`). -/
def alookup {β : Type} (k : String) : List (String × β) → Option β
  | [] => none
  | (k', v) :: rest => if k' = k then some v else alookup k rest

/-- Remove every binding of `k` (models `del d[k]` / `os.remove` of the file
named `k`; real dictionaries and directories hold each key once). -/
def aerase {β : Type} (k : String) : List (String × β) → List (String × β)
  | [] => []
  | (k', v) :: rest => if k' = k then aerase k rest else (k', v) :: aerase k rest

/-- Python `d[k] = v`: replace the value in place if the key is present,
otherwise append the new binding (Python dicts preserve insertion order). -/
def aset {β : Type} (k : String) (v : β) : List (String × β) → List (String × β)
  | [] => [(k, v)]
  | (k', v') :: rest => if k' = k then (k, v) :: rest else (k', v') :: aset k v rest

theorem alookup_aerase_self {β : Type} (k : String) (l : List (String × β)) :
    alookup k (aerase k l) = none := by
  induction l with
  | nil => rfl
  | cons p rest ih =>
    obtain ⟨k', v⟩ := p
    by_cases h : k' = k
    · simp [aerase, h, ih]
    · simp [aerase, alookup, h, ih]

theorem alookup_aset_self {β : Type} (k : String) (v : β) (l : List (String × β)) :
    alookup k (aset k v l) = some v := by
  induction l with
  | nil => simp [aset, alookup]
  | cons p rest ih =>
    obtain ⟨k', v'⟩ := p
    by_cases h : k' = k
    · simp [aset, h, alookup]
    · simp [aset, alookup, h, ih]

theorem aset_length_le {β : Type} (k : String) (v : β) (l : List (String × β)) :
    (aset k v l).length ≤ l.length + 1 := by
  induction l with
  | nil => simp [aset]
  | cons p rest ih =>
    obtain ⟨k', v'⟩ := p
    by_cases h : k' = k
    · simp [aset, h]
    · simp only [aset, if_neg h, List.length_cons]
      omega

theorem aerase_length_le {β : Type} (k : String) (l : List (String × β)) :
    (aerase k l).length ≤ l.length := by
  induction l with
  | nil => simp [aerase]
  | cons p rest ih =>
    obtain ⟨k', v⟩ := p
    by_cases h : k' = k
    · simp only [aerase, if_pos h, List.length_cons]
      omega
    · simp only [aerase, if_neg h, List.length_cons]
      omega

theorem aerase_length_lt {β : Type} (k : String) (l : List (String × β)) (v : β)
    (h : alookup k l = some v) : (aerase k l).length < l.length := by
  induction l with
  | nil => simp [alookup] at h
  | cons p rest ih =>
    obtain ⟨k', v'⟩ := p
    by_cases hk : k' = k
    · simp only [aerase, if_pos hk, List.length_cons]
      have := aerase_length_le (β := β) k rest
      omega
    · simp only [alookup, if_neg hk] at h
      simp only [aerase, if_neg hk, List.length_cons]
      exact Nat.succ_lt_succ (ih h)

theorem aerase_of_alookup_none {β : Type} (k : String) (l : List (String × β))
    (h : alookup k l = none) : aerase k l = l := by
  induction l with
  | nil => rfl
  | cons p rest ih =>
    obtain ⟨k', v⟩ := p
    by_cases hk : k' = k
    · simp [alookup, hk] at h
    · simp only [alookup, if_neg hk] at h
      simp [aerase, hk, ih h]

theorem alookup_append_self {β : Type} (k : String) (v : β) (l : List (String × β))
    (h : alookup k l = none) : alookup k (l ++ [(k, v)]) = some v := by
  induction l with
  | nil => simp [alookup]
  | cons p rest ih =>
    obtain ⟨k', v'⟩ := p
    by_cases hk : k' = k
    · simp [alookup, hk] at h
    · simp only [alookup, if_neg hk] at h
      simp [alookup, hk, ih h]

theorem alookup_aset_ne {β : Type} (k k' : String) (v : β) (l : List (String × β))
    (h : k' ≠ k) : alookup k (aset k' v l) = alookup k l := by
  induction l with
  | nil => simp [aset, alookup, h]
  | cons p rest ih =>
    obtain ⟨k'', v''⟩ := p
    by_cases hk : k'' = k'
    · subst hk
      simp [aset, alookup, h]
    · simp only [aset, if_neg hk, alookup]
      by_cases hku : k'' = k
      · simp [hku]
      · simp [hku, ih]

theorem alookup_none_of_sublist {β : Type} (k : String) {l l' : List (String × β)}
    (hs : l'.Sublist l) (h : alookup k l = none) : alookup k l' = none := by
  induction hs with
  | slnil => rfl
  | cons p _ ih =>
    obtain ⟨k', v⟩ := p
    by_cases hk : k' = k
    · simp [alookup, hk] at h
    · simp only [alookup, if_neg hk] at h
      exact ih h
  | cons₂ p hs' ih =>
    obtain ⟨k', v⟩ := p
    by_cases hk : k' = k
    · simp [alookup, hk] at h
    · simp only [alookup, if_neg hk] at h ⊢
      exact ih h

namespace CacheMgr

/-!
## core/cache_manager.py — `DirectoryCache`

The on-disk cache is modelled as an association list from file name to file
content.  A file is either a well-formed cache entry (a JSON document
`{timestamp, url, content}` whose timestamp parses) or `corrupt` (malformed
JSON, unreadable bytes, missing keys, or an unparsable timestamp: anything that
makes `json.load`/`fromisoformat`/the key accesses raise).  Wall-clock times
are seconds as `Nat`.  The md5 hex digest used for file names is kept as a
function parameter `hash`; every theorem below holds for an arbitrary digest
function. -/

/-- Content of one on-disk cache file. -/
inductive DiskFile (α : Type) where
  | corrupt : DiskFile α
  | entry (timestamp : Nat) (url : String) (content : α) : DiskFile α
deriving DecidableEq

/-- The cache directory: file name ↦ file content. -/
abbrev FS (α : Type) := List (String × DiskFile α)

/-- `timedelta(hours=24)` in seconds (`DirectoryCache.cache_duration`). -/
def cacheDurationSeconds : Nat := 24 * 3600

/-- `DirectoryCache._get_cache_key`: `"cache_" + md5(url).hexdigest() + ".json"`. -/
def cacheKey (hash : String → String) (url : String) : String :=
  "cache_" ++ hash url ++ ".json"

/-- `DirectoryCache.get` (cache_manager.py lines 26-50).  Returns the result
and the cache directory afterwards.  A missing file returns `none`; a corrupt
file makes the body raise, the `except` returns `none` without touching the
directory; a fresh entry is returned; an expired entry is removed and `none`
returned. -/
def get {α : Type} (hash : String → String) (fs : FS α) (now : Nat) (url : String) :
    Option α × FS α :=
  let file := cacheKey hash url
  match alookup file fs with
  | none => (none, fs)
  | some .corrupt => (none, fs)
  | some (.entry ts _ content) =>
    if now - ts < cacheDurationSeconds then (some content, fs)
    else (none, aerase file fs)

/-- `DirectoryCache.set` (cache_manager.py lines 52-69): write the JSON document
`{timestamp: now, url, content}` to the cache file, overwriting it. -/
def set {α : Type} (hash : String → String) (fs : FS α) (now : Nat) (url : String)
    (content : α) : FS α :=
  (cacheKey hash url, .entry now url content) :: aerase (cacheKey hash url) fs

theorem get_of_corrupt {α : Type} (hash : String → String) (fs : FS α) (now : Nat)
    (url : String) (h : alookup (cacheKey hash url) fs = some .corrupt) :
    get hash fs now url = (none, fs) := by
  simp [get, h]

theorem get_of_set_fresh {α : Type} (hash : String → String) (fs : FS α) (now : Nat)
    (url : String) (items : α) :
    get hash (set hash fs now url items) now url = (some items, set hash fs now url items) := by
  simp [get, set, alookup, cacheDurationSeconds]

theorem get_of_set_expired {α : Type} (hash : String → String) (fs : FS α) (now t : Nat)
    (url : String) (items : α) (ht : now + cacheDurationSeconds ≤ t) :
    (get hash (set hash fs now url items) t url).1 = none
    ∧ alookup (cacheKey hash url) (get hash (set hash fs now url items) t url).2 = none := by
  have hlt : ¬ (t - now < cacheDurationSeconds) := by
    simp only [cacheDurationSeconds] at ht ⊢
    omega
  constructor
  · simp [get, set, alookup, hlt]
  · simp [get, set, alookup, hlt, aerase, alookup_aerase_self]

end CacheMgr

/-- C5 counterexample: a corrupted on-disk entry makes `DirectoryCache.get`
return a miss, but — contrary to the claim — the corrupted cache file is NOT
deleted: it is still present in the cache directory afterwards.  (Deletion of
corrupted files happens only in `clear_expired`, cache_manager.py lines 86-93.) -/
theorem C5_counterexample :
    (CacheMgr.get id ([(CacheMgr.cacheKey id "u", CacheMgr.DiskFile.corrupt)] :
        CacheMgr.FS (List String)) 0 "u").1 = none
    ∧ alookup (CacheMgr.cacheKey id "u")
        (CacheMgr.get id ([(CacheMgr.cacheKey id "u", CacheMgr.DiskFile.corrupt)] :
            CacheMgr.FS (List String)) 0 "u").2
        = some CacheMgr.DiskFile.corrupt := by
  exact ⟨rfl, rfl⟩

/-- C5 (amended): for every URL whose on-disk cache entry is corrupted,
`DirectoryCache.get url` returns a miss (`none`) and never raises to the caller
(the embedded `get` is total: the body's exception is caught and turned into the
miss), but the corrupted cache file is left in place — the whole cache directory
is unchanged.  Corrupted files are deleted only by `clear_expired`. -/
theorem C5_corrupt_entry_is_silent_miss {α : Type} (hash : String → String)
    (fs : CacheMgr.FS α) (now : Nat) (url : String)
    (h : alookup (CacheMgr.cacheKey hash url) fs = some .corrupt) :
    CacheMgr.get hash fs now url = (none, fs) :=
  CacheMgr.get_of_corrupt hash fs now url h

/-- C5 witness: the amended theorem applied to a concrete corrupted store. -/
theorem C5_corrupt_entry_is_silent_miss_witness :
    alookup (CacheMgr.cacheKey id "u")
        ([(CacheMgr.cacheKey id "u", CacheMgr.DiskFile.corrupt)] : CacheMgr.FS (List String))
        = some .corrupt
    ∧ CacheMgr.get id ([(CacheMgr.cacheKey id "u", CacheMgr.DiskFile.corrupt)] :
        CacheMgr.FS (List String)) 7 "u"
      = (none, [(CacheMgr.cacheKey id "u", CacheMgr.DiskFile.corrupt)]) :=
  ⟨rfl, C5_corrupt_entry_is_silent_miss id _ 7 "u" rfl⟩

/-- C6: `set(url, items)` followed immediately by `get(url)` returns exactly
`items`; and at any time `t` at least the expiry duration (24 hours) after the
`set`, `get(url)` returns a miss and the stored cache file has been removed. -/
theorem C6_cache_roundtrip_and_expiry {α : Type} (hash : String → String)
    (fs : CacheMgr.FS α) (now t : Nat) (url : String) (items : α)
    (ht : now + CacheMgr.cacheDurationSeconds ≤ t) :
    (CacheMgr.get hash (CacheMgr.set hash fs now url items) now url).1 = some items
    ∧ (CacheMgr.get hash (CacheMgr.set hash fs now url items) t url).1 = none
    ∧ alookup (CacheMgr.cacheKey hash url)
        (CacheMgr.get hash (CacheMgr.set hash fs now url items) t url).2 = none := by
  refine ⟨?_, CacheMgr.get_of_set_expired hash fs now t url items ht⟩
  rw [CacheMgr.get_of_set_fresh]

/-- C6 witness: round trip and expiry on a concrete store. -/
theorem C6_cache_roundtrip_and_expiry_witness :
    0 + CacheMgr.cacheDurationSeconds ≤ 86400
    ∧ ((CacheMgr.get id (CacheMgr.set id ([] : CacheMgr.FS (List String)) 0 "u" ["f", "5"])
          0 "u").1 = some ["f", "5"]
       ∧ (CacheMgr.get id (CacheMgr.set id ([] : CacheMgr.FS (List String)) 0 "u" ["f", "5"])
            86400 "u").1 = none
       ∧ alookup (CacheMgr.cacheKey id "u")
           (CacheMgr.get id (CacheMgr.set id ([] : CacheMgr.FS (List String)) 0 "u"
               ["f", "5"]) 86400 "u").2 = none) :=
  ⟨by decide, C6_cache_roundtrip_and_expiry id [] 0 86400 "u" ["f", "5"] (by decide)⟩

namespace Utils

/-!
## core/utils.py — `SizeCalculator`

The network is a parameter `net : String → SizeResult` giving, for each URL,
what the size helper for its scheme (`_get_http_size` / `_get_ftp_size`)
returns: an `Int` (the size, or `-1` after the helper caught its own failure),
or the exception that evaluating the helper's result raises inside `run`'s
`try` (e.g. `ftp.size` returning `None` making `size >= 0` raise `TypeError`).
-/

/-- Outcome of asking the network for one URL's size. -/
inductive SizeResult where
  | val (n : Int) : SizeResult
  | exn (msg : String) : SizeResult
deriving DecidableEq

/-- `str.lower()` (ASCII; the schemes compared against are ASCII). -/
def strToLower (s : String) : String := ⟨s.data.map Char.toLower⟩

/-- `urlparse(url).scheme` for the URLs the app handles: the part before the
first `:` when one is present, otherwise the empty scheme of a plain path. -/
def schemeOf (url : String) : String :=
  if url.data.contains ':' then ⟨url.data.takeWhile (· ≠ ':')⟩ else ""

/-- One iteration of `SizeCalculator.run`'s loop body (utils.py lines 29-40):
the size that gets recorded for `url`, or `none` when the URL is skipped.
`size` starts at `0`; a supported scheme consults the helper; an unsupported
scheme leaves `size = 0`; the `if size >= 0` guard admits the result, so a
helper failure (`-1`) and a raised exception both skip the URL. -/
def stepSize (net : String → SizeResult) (url : String) : Option Int :=
  let scheme := strToLower (schemeOf url)
  if scheme = "http" ∨ scheme = "https" ∨ scheme = "ftp" ∨ scheme = "" then
    match net url with
    | .val n => if 0 ≤ n then some n else none
    | .exn _ => none
  else some 0

/-- Result of `SizeCalculator.run`: the aggregate emitted by `finished`, plus
the stream of `progress(processed_count, total_files)` emissions. -/
structure SizeRun where
  totalSize : Int
  fileSizes : List (String × Int)
  progressEvents : List (Nat × Nat)
deriving DecidableEq

/-- The loop of `SizeCalculator.run` (utils.py lines 27-42), with the stop flag
never raised.  `processed` and `totalFiles` feed the progress signal; `tot` and
`m` accumulate `total_size` and `file_sizes_map`. -/
def runSizeAux (net : String → SizeResult) (totalFiles : Nat) :
    List String → Nat → Int → List (String × Int) → SizeRun
  | [], _, tot, m => ⟨tot, m, []⟩
  | url :: rest, processed, tot, m =>
    let next :=
      match stepSize net url with
      | some n => runSizeAux net totalFiles rest (processed + 1) (tot + n) (aset url n m)
      | none => runSizeAux net totalFiles rest (processed + 1) tot m
    { next with progressEvents := (processed + 1, totalFiles) :: next.progressEvents }

/-- `SizeCalculator.run` on a URL list (stop flag never raised, so `finished`
fires with the accumulated aggregate). -/
def runSize (net : String → SizeResult) (urls : List String) : SizeRun :=
  runSizeAux net urls.length urls 0 0 []

theorem runSizeAux_progress_length (net : String → SizeResult) (totalFiles : Nat)
    (urls : List String) (processed : Nat) (tot : Int) (m : List (String × Int)) :
    (runSizeAux net totalFiles urls processed tot m).progressEvents.length = urls.length := by
  induction urls generalizing processed tot m with
  | nil => rfl
  | cons url rest ih =>
    simp only [runSizeAux]
    cases stepSize net url <;> simp [ih]

theorem runSizeAux_total (net : String → SizeResult) (totalFiles : Nat)
    (urls : List String) (processed : Nat) (tot : Int) (m : List (String × Int)) :
    (runSizeAux net totalFiles urls processed tot m).totalSize
      = tot + (urls.map (fun u => (stepSize net u).getD 0)).sum := by
  induction urls generalizing processed tot m with
  | nil => simp [runSizeAux]
  | cons url rest ih =>
    simp only [runSizeAux, List.map_cons, List.sum_cons]
    cases h : stepSize net url with
    | none => simp [ih, h]
    | some n =>
      simp only [Option.getD_some, ih]
      ring

theorem runSizeAux_lookup_none (net : String → SizeResult) (totalFiles : Nat)
    (urls : List String) (processed : Nat) (tot : Int) (m : List (String × Int))
    (u : String) (hu : stepSize net u = none) (hm : alookup u m = none) :
    alookup u (runSizeAux net totalFiles urls processed tot m).fileSizes = none := by
  induction urls generalizing processed tot m with
  | nil => exact hm
  | cons url rest ih =>
    simp only [runSizeAux]
    cases h : stepSize net url with
    | none => exact ih _ _ _ hm
    | some n =>
      refine ih _ _ _ ?_
      have hne : url ≠ u := fun he => by rw [he, hu] at h; exact Option.noConfusion h
      rw [alookup_aset_ne u url n m hne]
      exact hm

theorem runSizeAux_lookup_some (net : String → SizeResult) (totalFiles : Nat)
    (urls : List String) (processed : Nat) (tot : Int) (m : List (String × Int))
    (u : String) (n : Int) (hu : stepSize net u = some n)
    (hin : u ∈ urls ∨ alookup u m = some n) :
    alookup u (runSizeAux net totalFiles urls processed tot m).fileSizes = some n := by
  induction urls generalizing processed tot m with
  | nil =>
    rcases hin with h | h
    · exact absurd h (List.not_mem_nil u)
    · exact h
  | cons url rest ih =>
    simp only [runSizeAux]
    by_cases he : url = u
    · subst he
      rw [hu]
      exact ih _ _ _ (Or.inr (alookup_aset_self url n m))
    · cases h : stepSize net url with
      | none =>
        refine ih _ _ _ ?_
        rcases hin with hmem | hm
        · rcases List.mem_cons.mp hmem with rfl | hmem
          · exact absurd rfl he
          · exact Or.inl hmem
        · exact Or.inr hm
      | some n' =>
        refine ih _ _ _ ?_
        rcases hin with hmem | hm
        · rcases List.mem_cons.mp hmem with rfl | hmem
          · exact absurd rfl he
          · exact Or.inl hmem
        · refine Or.inr ?_
          rw [alookup_aset_ne u url n' m he]
          exact hm

end Utils

/-- C7: a size-check failure for one URL does not abort the `SizeCalculator`
batch: all URLs are still processed (one progress emission per input URL), the
failing URL is excluded from the returned total (the total is the sum of the
successfully resolved sizes only, a failure contributing nothing) and from the
result map, while a URL whose size resolves to exactly `0` bytes appears in the
result map bound to `0`. -/
theorem C7_size_failure_isolated (net : String → Utils.SizeResult) (urls : List String)
    (u z : String) (hfail : Utils.stepSize net u = none)
    (hzero : Utils.stepSize net z = some 0) (hz : z ∈ urls) :
    (Utils.runSize net urls).progressEvents.length = urls.length
    ∧ (Utils.runSize net urls).totalSize
        = (urls.map (fun x => (Utils.stepSize net x).getD 0)).sum
    ∧ alookup u (Utils.runSize net urls).fileSizes = none
    ∧ alookup z (Utils.runSize net urls).fileSizes = some 0 := by
  refine ⟨Utils.runSizeAux_progress_length net urls.length urls 0 0 [],
    ?_, Utils.runSizeAux_lookup_none net urls.length urls 0 0 [] u hfail rfl,
    Utils.runSizeAux_lookup_some net urls.length urls 0 0 [] z 0 hzero (Or.inl hz)⟩
  have := Utils.runSizeAux_total net urls.length urls 0 0 []
  simpa [Utils.runSize] using this

/-- C7 witness: a three-URL batch where the middle URL's size check fails and
the last resolves to zero bytes. -/
theorem C7_size_failure_isolated_witness :
    Utils.stepSize (fun url => if url = "http://h/bad" then .exn "timeout"
        else if url = "http://h/zero" then .val 0 else .val 7) "http://h/bad" = none
    ∧ Utils.stepSize (fun url => if url = "http://h/bad" then .exn "timeout"
        else if url = "http://h/zero" then .val 0 else .val 7) "http://h/zero" = some 0
    ∧ "http://h/zero" ∈ ["http://h/a", "http://h/bad", "http://h/zero"]
    ∧ ((Utils.runSize (fun url => if url = "http://h/bad" then .exn "timeout"
          else if url = "http://h/zero" then .val 0 else .val 7)
          ["http://h/a", "http://h/bad", "http://h/zero"]).progressEvents.length
          = ["http://h/a", "http://h/bad", "http://h/zero"].length
       ∧ (Utils.runSize (fun url => if url = "http://h/bad" then .exn "timeout"
            else if url = "http://h/zero" then .val 0 else .val 7)
            ["http://h/a", "http://h/bad", "http://h/zero"]).totalSize
          = (["http://h/a", "http://h/bad", "http://h/zero"].map
              (fun x => (Utils.stepSize (fun url => if url = "http://h/bad" then .exn "timeout"
                else if url = "http://h/zero" then .val 0 else .val 7) x).getD 0)).sum
       ∧ alookup "http://h/bad" (Utils.runSize (fun url => if url = "http://h/bad" then .exn "timeout"
            else if url = "http://h/zero" then .val 0 else .val 7)
            ["http://h/a", "http://h/bad", "http://h/zero"]).fileSizes = none
       ∧ alookup "http://h/zero" (Utils.runSize (fun url => if url = "http://h/bad" then .exn "timeout"
            else if url = "http://h/zero" then .val 0 else .val 7)
            ["http://h/a", "http://h/bad", "http://h/zero"]).fileSizes = some 0) :=
  ⟨by decide, by decide, by decide,
    C7_size_failure_isolated _ _ "http://h/bad" "http://h/zero"
      (by decide) (by decide) (by decide)⟩

namespace Downloader

/-!
## core/downloader.py — `DownloadWorker` and `DownloadManager`

File contents are byte lists (`List Nat`), local paths are strings manipulated
by faithful models of the POSIX `os.path` helpers, the network is a parameter.
-/

/-- `os.path.join(base, p)` on POSIX paths: an absolute second argument wins;
otherwise a separator is inserted unless `base` is empty or already ends in
one. -/
def pathJoin (base p : String) : String :=
  if p.data.headD ' ' = '/' then p
  else if base = "" ∨ base.data.getLast? = some '/' then base ++ p
  else base ++ "/" ++ p

/-- `os.path.dirname(p)` on POSIX paths: the prefix of `p` up to the last `/`,
with trailing separators stripped unless the result is only separators. -/
def dirName (p : String) : String :=
  let head := (p.data.reverse.dropWhile (· ≠ '/')).reverse
  if head ≠ [] ∧ head.any (· ≠ '/') then ⟨(head.reverse.dropWhile (· = '/')).reverse⟩
  else ⟨head⟩

/-- Value of an ASCII hex digit. -/
def hexVal (c : Char) : Option Nat :=
  if '0' ≤ c ∧ c ≤ '9' then some (c.toNat - '0'.toNat)
  else if 'a' ≤ c ∧ c ≤ 'f' then some (c.toNat - 'a'.toNat + 10)
  else if 'A' ≤ c ∧ c ≤ 'F' then some (c.toNat - 'A'.toNat + 10)
  else none

/-- `urllib.parse.unquote` on the ASCII percent-escapes the crawler produces:
`%XY` with two hex digits decodes to the character with that code, anything
else is copied through. -/
def unquoteAux : Nat → List Char → List Char
  | 0, _ => []
  | _, [] => []
  | fuel + 1, c :: rest =>
    if c = '%' then
      match rest with
      | c1 :: c2 :: rest' =>
        match hexVal c1, hexVal c2 with
        | some h1, some h2 => Char.ofNat (16 * h1 + h2) :: unquoteAux fuel rest'
        | _, _ => c :: unquoteAux fuel rest
      | _ => c :: unquoteAux fuel rest
    else c :: unquoteAux fuel rest

/-- `urllib.parse.unquote` on a string.  The scan consumes at least one
character per step, so the string's length bounds the steps (the `Nat` argument
of `unquoteAux` is that structural bound). -/
def unquote (s : String) : String := ⟨unquoteAux s.data.length s.data⟩

/-- `file_path` recorded in the download entry at enqueue time:
`os.path.join(self.base_folder, rel_path)` (downloader.py line 156). -/
def entryFilePath (destRoot relPath : String) : String := pathJoin destRoot relPath

/-- The `base_folder` handed to the worker at dispatch:
`os.path.dirname(download_entry['file_path'])` (downloader.py line 176). -/
def workerBaseFolder (destRoot relPath : String) : String :=
  dirName (entryFilePath destRoot relPath)

/-- `local_filename = os.path.join(self.base_folder, unquote(self.rel_path))`
opened for writing by `DownloadWorker._download_http` (line 51) and
`_download_ftp` (line 75). -/
def workerLocalFilename (destRoot relPath : String) : String :=
  pathJoin (workerBaseFolder destRoot relPath) (unquote relPath)

/-- Signals emitted by a `DownloadWorker` during `run`, in order, plus the
`time.sleep` calls between retry attempts. -/
inductive WEvent where
  | status (workerId msg : String) : WEvent
  | sleep (seconds : Nat) : WEvent
  | error (workerId msg : String) : WEvent
  | finished (workerId : String) (bytes : Nat) : WEvent
deriving DecidableEq

/-- What one download attempt does: how many bytes it appends to
`bytes_downloaded_this_session` before returning or raising, and the raised
exception's message if it raises (`none` = the attempt succeeded). -/
structure AttemptResult where
  bytesAdded : Nat
  failure : Option String
deriving DecidableEq

/-- The scheme dispatch inside `DownloadWorker.run`'s `try` (downloader.py
lines 37-39): http/https and ftp/empty go to the transfer helpers (modelled by
`net`), any other scheme raises `ValueError` at once, transferring nothing. -/
def attemptOutcome (scheme : String) (net : Nat → AttemptResult) (attempt : Nat) :
    AttemptResult :=
  if Utils.strToLower scheme = "http" ∨ Utils.strToLower scheme = "https" then net attempt
  else if Utils.strToLower scheme = "ftp" ∨ Utils.strToLower scheme = "" then net attempt
  else ⟨0, some ("Unsupported scheme: " ++ scheme)⟩

/-- The text of the between-attempts notification (downloader.py line 45). -/
def retryMsg (n : Nat) : String := "Retrying (" ++ toString n ++ ")..."

/-- The retry loop `for attempt in range(retry_attempts)` of
`DownloadWorker.run` (downloader.py lines 34-46), with `stop()` never called so
`_is_running` stays true.  The first `Nat` is the number of loop iterations
still available (`retryAttempts - attempt`), which the loop counter `attempt`
and the session-byte accumulator `sess` ride along with.  Returns the events
emitted inside the loop and the final session byte count. -/
def runAttemptsAux (workerId : String) (retryDelay : Nat) (outcome : Nat → AttemptResult)
    (retryAttempts : Nat) : Nat → Nat → Nat → List WEvent × Nat
  | 0, _, sess => ([], sess)
  | remaining + 1, attempt, sess =>
    let r := outcome attempt
    let sess' := sess + r.bytesAdded
    match r.failure with
    | none => ([], sess')
    | some msg =>
      if retryAttempts ≤ attempt + 1 then ([.error workerId msg], sess')
      else
        let next := runAttemptsAux workerId retryDelay outcome retryAttempts remaining
          (attempt + 1) sess'
        (.status workerId (retryMsg (attempt + 1)) :: .sleep retryDelay :: next.1, next.2)

/-- `DownloadWorker.run` (downloader.py lines 31-47) with `stop()` never
called: emit `status "Downloading"`, run the retry loop, and since
`_is_running` is still true afterwards, emit `finished` with the session's
byte count. -/
def workerRun (workerId scheme : String) (retryAttempts retryDelay : Nat)
    (net : Nat → AttemptResult) : List WEvent :=
  let loop := runAttemptsAux workerId retryDelay (attemptOutcome scheme net)
    retryAttempts retryAttempts 0 0
  .status workerId "Downloading" :: loop.1 ++ [.finished workerId loop.2]

/-- A scheme the worker's dispatch supports. -/
def supportedScheme (scheme : String) : Prop :=
  Utils.strToLower scheme = "http" ∨ Utils.strToLower scheme = "https"
    ∨ Utils.strToLower scheme = "ftp" ∨ Utils.strToLower scheme = ""

/-- The events of a run of the retry loop in which every attempt fails:
a `Retrying (i)...` notification and a sleep after every non-final attempt,
then the terminal `error` carrying the final attempt's message. -/
def failTrace (workerId : String) (retryDelay : Nat) (msg : Nat → String)
    (retryAttempts : Nat) : Nat → Nat → List WEvent
  | 0, _ => []
  | remaining + 1, attempt =>
    if retryAttempts ≤ attempt + 1 then [.error workerId (msg attempt)]
    else .status workerId (retryMsg (attempt + 1)) :: .sleep retryDelay ::
      failTrace workerId retryDelay msg retryAttempts remaining (attempt + 1)

/-- Session bytes accumulated over attempts `attempt, …, attempt+remaining-1`. -/
def sumBytes (b : Nat → Nat) : Nat → Nat → Nat
  | 0, _ => 0
  | remaining + 1, attempt => b attempt + sumBytes b remaining (attempt + 1)

theorem runAttemptsAux_allFail (workerId : String) (retryDelay : Nat)
    (outcome : Nat → AttemptResult) (retryAttempts : Nat) (b : Nat → Nat)
    (msg : Nat → String) (hout : ∀ i, i < retryAttempts → outcome i = ⟨b i, some (msg i)⟩) :
    ∀ remaining attempt sess, remaining = retryAttempts - attempt → attempt < retryAttempts →
    runAttemptsAux workerId retryDelay outcome retryAttempts remaining attempt sess
      = (failTrace workerId retryDelay msg retryAttempts remaining attempt,
         sess + sumBytes b remaining attempt) := by
  intro remaining
  induction remaining with
  | zero => intro attempt sess hrem hlt; omega
  | succ rem ih =>
    intro attempt sess hrem hlt
    have hatt := hout attempt hlt
    simp only [runAttemptsAux, hatt]
    by_cases hlast : retryAttempts ≤ attempt + 1
    · have hrem0 : rem = 0 := by omega
      subst hrem0
      simp [failTrace, hlast, sumBytes]
    · have hlt' : attempt + 1 < retryAttempts := by omega
      rw [ih (attempt + 1) (sess + b attempt) (by omega) hlt']
      simp [failTrace, hlast, sumBytes]
      omega

theorem failTrace_ends_with_error (workerId : String) (retryDelay : Nat)
    (msg : Nat → String) (retryAttempts : Nat) :
    ∀ remaining attempt, remaining = retryAttempts - attempt → attempt < retryAttempts →
    ∃ front, failTrace workerId retryDelay msg retryAttempts remaining attempt
      = front ++ [.error workerId (msg (retryAttempts - 1))] := by
  intro remaining
  induction remaining with
  | zero => intro attempt hrem hlt; omega
  | succ rem ih =>
    intro attempt hrem hlt
    by_cases hlast : retryAttempts ≤ attempt + 1
    · refine ⟨[], ?_⟩
      have h1 : attempt = retryAttempts - 1 := by omega
      subst h1
      have h2 : retryAttempts ≤ retryAttempts - 1 + 1 := by omega
      simp [failTrace, h2]
    · obtain ⟨front, hfront⟩ := ih (attempt + 1) (by omega) (by omega)
      refine ⟨.status workerId (retryMsg (attempt + 1)) :: .sleep retryDelay :: front, ?_⟩
      simp [failTrace, hlast, hfront]

/-- The `DownloadWorker` object as the manager sees it
(`DownloadWorker(url, url, rel_path, base_folder, self.config, size)`,
downloader.py line 177: the `worker_id` is the url). -/
structure WorkerRec where
  workerId : String
  url : String
  relPath : String
  baseFolder : String
  totalSize : Nat
deriving DecidableEq

/-- One element of `DownloadManager.downloads` (downloader.py lines 150-157). -/
structure DownloadEntry where
  url : String
  relPath : String
  status : String
  progress : Nat
  size : Nat
  filePath : String
deriving DecidableEq

/-- The mutable state of a `DownloadManager` (downloader.py lines 122-132;
`base_folder` is set by `start_downloads`). -/
structure MgrState where
  downloadQueue : List (String × String)
  activeWorkers : List (String × WorkerRec)
  downloads : List DownloadEntry
  fileSizes : List (String × Nat)
  totalBytesToDownload : Nat
  totalBytesDownloaded : Nat
  baseFolder : String
deriving DecidableEq

/-- A freshly constructed `DownloadManager`. -/
def initState : MgrState := ⟨[], [], [], [], 0, 0, ""⟩

/-- The entry search inside `check_queue`'s dispatch loop (downloader.py
lines 174-175): first download entry matching url, rel_path and status
`Queued`. -/
def findQueuedEntry (url relPath : String) : List DownloadEntry → Option DownloadEntry
  | [] => none
  | d :: rest =>
    if d.url = url ∧ d.relPath = relPath ∧ d.status = "Queued" then some d
    else findQueuedEntry url relPath rest

/-- `DownloadManager._update_download_status` (lines 212-218): set the status
of the first entry with this url (progress forced to 100 on `Completed`) and
stop. -/
def updateDownloadStatus (url status : String) : List DownloadEntry → List DownloadEntry
  | [] => []
  | d :: rest =>
    if d.url = url then
      { d with status := status, progress := if status = "Completed" then 100 else d.progress }
        :: rest
    else d :: updateDownloadStatus url status rest

/-- The `while` loop of `DownloadManager.check_queue` (lines 171-188), acting
on the queue, the worker pool and the downloads list; returns their new values
plus the dispatched `(url, rel_path)` pairs in dispatch order.  Each iteration
pops the queue head; if a matching `Queued` entry exists, a worker bound to
`dirname(entry.file_path)` is stored under key `url` and the entry becomes
`Downloading`, otherwise the popped pair is dropped without starting anyone. -/
def checkQueueLoop (maxWorkers : Nat) (fileSizes : List (String × Nat)) :
    List (String × String) → List (String × WorkerRec) → List DownloadEntry →
    List (String × String) × List (String × WorkerRec) × List DownloadEntry
      × List (String × String)
  | [], active, downloads => ([], active, downloads, [])
  | (url, relPath) :: rest, active, downloads =>
    if active.length < maxWorkers then
      match findQueuedEntry url relPath downloads with
      | some entry =>
        let worker : WorkerRec :=
          ⟨url, url, relPath, dirName entry.filePath, (alookup url fileSizes).getD 0⟩
        let next := checkQueueLoop maxWorkers fileSizes rest (aset url worker active)
          (updateDownloadStatus url "Downloading" downloads)
        (next.1, next.2.1, next.2.2.1, (url, relPath) :: next.2.2.2)
      | none => checkQueueLoop maxWorkers fileSizes rest active downloads
    else ((url, relPath) :: rest, active, downloads, [])

/-- `DownloadManager.check_queue` (lines 165-188): run the dispatch loop and
return the new state together with the dispatched pairs. -/
def checkQueue (maxWorkers : Nat) (st : MgrState) : MgrState × List (String × String) :=
  let r := checkQueueLoop maxWorkers st.fileSizes st.downloadQueue st.activeWorkers st.downloads
  ({ st with downloadQueue := r.1, activeWorkers := r.2.1, downloads := r.2.2.1 }, r.2.2.2)

/-- `DownloadManager._on_worker_finished` (lines 190-201): the session's bytes
are added to the cumulative total unconditionally; then, if the worker is still
in the pool, the task is marked `Completed`, the worker is removed and the
queue re-checked.  (The cleanup lines 199-201 are indented per the inline
comments on lines 196-198, which state they belong inside the `if`.) -/
def onWorkerFinished (maxWorkers : Nat) (st : MgrState) (workerId : String) (bytes : Nat) :
    MgrState :=
  let st1 := { st with totalBytesDownloaded := st.totalBytesDownloaded + bytes }
  if (alookup workerId st1.activeWorkers).isSome then
    (checkQueue maxWorkers
      { st1 with downloads := updateDownloadStatus workerId "Completed" st1.downloads,
                 activeWorkers := aerase workerId st1.activeWorkers }).1
  else st1

/-- `DownloadManager._on_worker_error` (lines 203-210): mark the task `Failed`,
drop the worker, re-check the queue. -/
def onWorkerError (maxWorkers : Nat) (st : MgrState) (workerId : String) : MgrState :=
  if (alookup workerId st.activeWorkers).isSome then
    (checkQueue maxWorkers
      { st with downloads := updateDownloadStatus workerId "Failed" st.downloads,
                activeWorkers := aerase workerId st.activeWorkers }).1
  else st

/-- First loop of `_on_size_calc_finished` (lines 144-147): record each newly
seen url's size and add it to the grand total. -/
def addFileSizes : List (String × Nat) → List (String × Nat) → Nat
    → List (String × Nat) × Nat
  | [], fs, tot => (fs, tot)
  | (url, size) :: rest, fs, tot =>
    if (alookup url fs).isSome then addFileSizes rest fs tot
    else addFileSizes rest (fs ++ [(url, size)]) (tot + size)

/-- Second loop of `_on_size_calc_finished` (lines 148-158): for each selected
pair whose size resolved and which has no existing entry, append a `Queued`
download entry (with `file_path = join(base_folder, rel_path)`) and enqueue. -/
def addTasks (sizesMap fileSizes : List (String × Nat)) (baseFolder : String) :
    List (String × String) → List DownloadEntry → List (String × String)
    → List DownloadEntry × List (String × String)
  | [], downloads, queue => (downloads, queue)
  | (url, rel) :: rest, downloads, queue =>
    if (alookup url sizesMap).isSome
        ∧ ¬ downloads.any (fun d => d.url == url && d.relPath == rel) then
      addTasks sizesMap fileSizes baseFolder rest
        (downloads ++ [⟨url, rel, "Queued", 0, (alookup url fileSizes).getD 0,
          pathJoin baseFolder rel⟩])
        (queue ++ [(url, rel)])
    else addTasks sizesMap fileSizes baseFolder rest downloads queue

/-- `DownloadManager._on_size_calc_finished` (lines 142-163). -/
def onSizeCalcFinished (maxWorkers : Nat) (st : MgrState) (sizesMap : List (String × Nat))
    (tuples : List (String × String)) : MgrState :=
  let fsz := addFileSizes sizesMap st.fileSizes st.totalBytesToDownload
  let dq := addTasks sizesMap fsz.1 st.baseFolder tuples st.downloads st.downloadQueue
  let st1 := { st with fileSizes := fsz.1, totalBytesToDownload := fsz.2,
                       downloads := dq.1, downloadQueue := dq.2 }
  if st1.downloadQueue = [] ∧ st1.activeWorkers = [] then st1
  else (checkQueue maxWorkers st1).1

/-- `DownloadManager.pause_file` (line 231-232): pausing a worker does not
remove it from the pool; only the task status changes. -/
def pauseFile (st : MgrState) (workerId : String) : MgrState :=
  if (alookup workerId st.activeWorkers).isSome then
    { st with downloads := updateDownloadStatus workerId "Paused" st.downloads }
  else st

/-- `DownloadManager.resume_file` (lines 233-234). -/
def resumeFile (st : MgrState) (workerId : String) : MgrState :=
  if (alookup workerId st.activeWorkers).isSome then
    { st with downloads := updateDownloadStatus workerId "Downloading" st.downloads }
  else st

/-- `DownloadManager.cancel_file` (lines 235-236): `stop()` is called on the
worker but it stays in `active_workers` until its own signals drain. -/
def cancelFile (st : MgrState) (workerId : String) : MgrState :=
  if (alookup workerId st.activeWorkers).isSome then
    { st with downloads := updateDownloadStatus workerId "Canceled" st.downloads }
  else st

/-- `DownloadManager.pause_all` (lines 237-239). -/
def pauseAll (st : MgrState) : MgrState :=
  let dl := st.activeWorkers.foldl
    (fun dl p => updateDownloadStatus p.2.workerId "Paused" dl) st.downloads
  { st with downloads := dl }

/-- `DownloadManager.resume_all` (lines 240-242). -/
def resumeAll (st : MgrState) : MgrState :=
  let dl := st.activeWorkers.foldl
    (fun dl p => updateDownloadStatus p.2.workerId "Downloading" dl) st.downloads
  { st with downloads := dl }

/-- Inner loop of `cancel_all` (lines 249-253): mark every `Queued` entry for
this queue pair `Canceled` (no break: all matches). -/
def markQueuedCanceled (url relPath : String) (dl : List DownloadEntry) : List DownloadEntry :=
  dl.map (fun d =>
    if d.url = url ∧ d.relPath = relPath ∧ d.status = "Queued" then
      { d with status := "Canceled", progress := 0 }
    else d)

/-- `DownloadManager.cancel_all` (lines 243-255): stop every active worker
(statuses become `Canceled`; the pool itself is not emptied), cancel every
queued entry, clear the queue. -/
def cancelAll (st : MgrState) : MgrState :=
  let dl1 := st.activeWorkers.foldl
    (fun dl p => updateDownloadStatus p.2.workerId "Canceled" dl) st.downloads
  let dl2 := st.downloadQueue.foldl (fun dl p => markQueuedCanceled p.1 p.2 dl) dl1
  { st with downloads := dl2, downloadQueue := [] }

/-- The search-and-reset of `retry_download` (lines 259-266): first entry with
this url in `Failed`/`Canceled` becomes `Queued` with progress 0; returns the
updated list and the entry's rel_path. -/
def retryFind (url : String) : List DownloadEntry → Option (List DownloadEntry × String)
  | [] => none
  | d :: rest =>
    if d.url = url ∧ (d.status = "Failed" ∨ d.status = "Canceled") then
      some (({ d with status := "Queued", progress := 0 }) :: rest, d.relPath)
    else
      match retryFind url rest with
      | some (rest', rel) => some (d :: rest', rel)
      | none => none

/-- `DownloadManager.retry_download` (lines 257-266). -/
def retryDownload (maxWorkers : Nat) (st : MgrState) (url : String) : MgrState :=
  match retryFind url st.downloads with
  | some (dl', rel) =>
    (checkQueue maxWorkers
      { st with downloads := dl', downloadQueue := st.downloadQueue ++ [(url, rel)] }).1
  | none => st

/-- One externally triggered transition of the `DownloadManager`. -/
inductive MgrStep (maxWorkers : Nat) : MgrState → MgrState → Prop
  | startDownloads (st : MgrState) (folder : String) :
      MgrStep maxWorkers st { st with baseFolder := folder }
  | sizeCalcFinished (st : MgrState) (sizesMap : List (String × Nat))
      (tuples : List (String × String)) :
      MgrStep maxWorkers st (onSizeCalcFinished maxWorkers st sizesMap tuples)
  | workerFinished (st : MgrState) (workerId : String) (bytes : Nat) :
      MgrStep maxWorkers st (onWorkerFinished maxWorkers st workerId bytes)
  | workerError (st : MgrState) (workerId : String) :
      MgrStep maxWorkers st (onWorkerError maxWorkers st workerId)
  | pauseOne (st : MgrState) (workerId : String) : MgrStep maxWorkers st (pauseFile st workerId)
  | resumeOne (st : MgrState) (workerId : String) : MgrStep maxWorkers st (resumeFile st workerId)
  | cancelOne (st : MgrState) (workerId : String) : MgrStep maxWorkers st (cancelFile st workerId)
  | pauseEvery (st : MgrState) : MgrStep maxWorkers st (pauseAll st)
  | resumeEvery (st : MgrState) : MgrStep maxWorkers st (resumeAll st)
  | cancelEvery (st : MgrState) : MgrStep maxWorkers st (cancelAll st)
  | retryOne (st : MgrState) (url : String) :
      MgrStep maxWorkers st (retryDownload maxWorkers st url)

/-- A manager state reachable from a fresh manager by manager transitions. -/
def Reachable (maxWorkers : Nat) (st : MgrState) : Prop :=
  Relation.ReflTransGen (MgrStep maxWorkers) initState st

theorem checkQueueLoop_active_le (maxWorkers : Nat) (fileSizes : List (String × Nat))
    (queue : List (String × String)) (active : List (String × WorkerRec))
    (downloads : List DownloadEntry) (h : active.length ≤ maxWorkers) :
    (checkQueueLoop maxWorkers fileSizes queue active downloads).2.1.length ≤ maxWorkers := by
  induction queue generalizing active downloads with
  | nil => simpa [checkQueueLoop] using h
  | cons p rest ih =>
    obtain ⟨url, relPath⟩ := p
    by_cases hlt : active.length < maxWorkers
    · simp only [checkQueueLoop, if_pos hlt]
      cases hf : findQueuedEntry url relPath downloads with
      | some entry =>
        simp only []
        refine ih (aset url ⟨url, url, relPath, dirName entry.filePath,
          (alookup url fileSizes).getD 0⟩ active) _ ?_
        have := aset_length_le url (⟨url, url, relPath, dirName entry.filePath,
          (alookup url fileSizes).getD 0⟩ : WorkerRec) active
        omega
      | none => exact ih active downloads h
    · simpa [checkQueueLoop, hlt] using h

theorem checkQueueLoop_dispatch_sublist (maxWorkers : Nat) (fileSizes : List (String × Nat))
    (queue : List (String × String)) (active : List (String × WorkerRec))
    (downloads : List DownloadEntry) :
    (checkQueueLoop maxWorkers fileSizes queue active downloads).2.2.2.Sublist queue := by
  induction queue generalizing active downloads with
  | nil => simp [checkQueueLoop]
  | cons p rest ih =>
    obtain ⟨url, relPath⟩ := p
    by_cases hlt : active.length < maxWorkers
    · simp only [checkQueueLoop, if_pos hlt]
      cases hf : findQueuedEntry url relPath downloads with
      | some entry =>
        simp only []
        exact List.Sublist.cons₂ _ (ih _ _)
      | none => exact (ih _ _).cons _
    · simp [checkQueueLoop, hlt]

theorem checkQueue_active_le (maxWorkers : Nat) (st : MgrState)
    (h : st.activeWorkers.length ≤ maxWorkers) :
    (checkQueue maxWorkers st).1.activeWorkers.length ≤ maxWorkers :=
  checkQueueLoop_active_le maxWorkers st.fileSizes st.downloadQueue st.activeWorkers
    st.downloads h

theorem mgrStep_active_le {maxWorkers : Nat} {st st' : MgrState}
    (hstep : MgrStep maxWorkers st st') (h : st.activeWorkers.length ≤ maxWorkers) :
    st'.activeWorkers.length ≤ maxWorkers := by
  cases hstep with
  | startDownloads folder => exact h
  | sizeCalcFinished sizesMap tuples =>
    simp only [onSizeCalcFinished]
    split
    · exact h
    · exact checkQueue_active_le maxWorkers _ h
  | workerFinished workerId bytes =>
    simp only [onWorkerFinished]
    split
    · refine checkQueue_active_le maxWorkers _ ?_
      show (aerase workerId st.activeWorkers).length ≤ maxWorkers
      have := aerase_length_le workerId st.activeWorkers
      omega
    · exact h
  | workerError workerId =>
    simp only [onWorkerError]
    split
    · refine checkQueue_active_le maxWorkers _ ?_
      show (aerase workerId st.activeWorkers).length ≤ maxWorkers
      have := aerase_length_le workerId st.activeWorkers
      omega
    · exact h
  | pauseOne workerId =>
    simp only [pauseFile]
    split <;> exact h
  | resumeOne workerId =>
    simp only [resumeFile]
    split <;> exact h
  | cancelOne workerId =>
    simp only [cancelFile]
    split <;> exact h
  | pauseEvery => exact h
  | resumeEvery => exact h
  | cancelEvery => exact h
  | retryOne url =>
    simp only [retryDownload]
    cases hr : retryFind url st.downloads with
    | some p =>
      obtain ⟨dl', rel⟩ := p
      exact checkQueue_active_le maxWorkers _ h
    | none => exact h

theorem reachable_active_le (maxWorkers : Nat) (st : MgrState)
    (h : Reachable maxWorkers st) : st.activeWorkers.length ≤ maxWorkers := by
  induction h with
  | refl => simp [initState]
  | tail _ hstep ih => exact mgrStep_active_le hstep ih

instance decSupportedScheme (scheme : String) : Decidable (supportedScheme scheme) :=
  inferInstanceAs (Decidable (Utils.strToLower scheme = "http"
    ∨ Utils.strToLower scheme = "https" ∨ Utils.strToLower scheme = "ftp"
    ∨ Utils.strToLower scheme = ""))

theorem sumBytes_const_zero (remaining attempt : Nat) :
    sumBytes (fun _ => 0) remaining attempt = 0 := by
  induction remaining generalizing attempt with
  | zero => rfl
  | succ r ih => simp [sumBytes, ih]

theorem attemptOutcome_unsupported (scheme : String) (net : Nat → AttemptResult)
    (hs : ¬ supportedScheme scheme) (i : Nat) :
    attemptOutcome scheme net i = ⟨0, some ("Unsupported scheme: " ++ scheme)⟩ := by
  unfold supportedScheme at hs
  push_neg at hs
  obtain ⟨h1, h2, h3, h4⟩ := hs
  simp [attemptOutcome, h1, h2, h3, h4]

theorem attemptOutcome_supported (scheme : String) (net : Nat → AttemptResult)
    (hs : supportedScheme scheme) : attemptOutcome scheme net = net := by
  funext i
  rcases hs with h | h | h | h <;> simp [attemptOutcome, h]

/-- Mode the local file is opened with: `'wb'` truncates, `'ab'` appends. -/
inductive FileMode where
  | write : FileMode
  | append : FileMode
deriving DecidableEq

/-- Observable outcome of one `_download_http` call. -/
structure HttpDownloadResult where
  rangeHeader : Option Nat
  openMode : FileMode
  finalFile : List Nat
  sessionBytes : Nat
  progressEvents : List (Nat × Nat)
deriving DecidableEq

/-- The chunk loop of `_download_http` (downloader.py lines 62-71), never
paused or stopped: each non-empty chunk is appended to the file and counted
into `downloaded_bytes` and the session total before `progress` is emitted;
the `if chunk:` guard skips keep-alive chunks. -/
def httpWriteLoop (totalSize : Nat) :
    List (List Nat) → List Nat → Nat → Nat → List Nat × Nat × List (Nat × Nat)
  | [], file, _, sess => (file, sess, [])
  | c :: rest, file, downloaded, sess =>
    if c = [] then httpWriteLoop totalSize rest file downloaded sess
    else
      let next := httpWriteLoop totalSize rest (file ++ c) (downloaded + c.length)
        (sess + c.length)
      (next.1, next.2.1, (downloaded + c.length, totalSize) :: next.2.2)

/-- `DownloadWorker._download_http` (downloader.py lines 49-71) against an
ideal range-honouring server.  `localFile` is the destination file's current
content when it exists; `contentLength` is the response's Content-Length
header; `chunks` are what `iter_content` yields (their concatenation is the
response body). -/
def downloadHttp (localFile : Option (List Nat)) (totalSizeField contentLength : Nat)
    (chunks : List (List Nat)) : HttpDownloadResult :=
  let resumedBytes := match localFile with | some l => l.length | none => 0
  let rangeHeader : Option Nat :=
    match localFile with | some _ => some resumedBytes | none => none
  let totalSize := if totalSizeField ≠ 0 then totalSizeField else contentLength + resumedBytes
  let mode : FileMode := if resumedBytes > 0 then .append else .write
  let base : List Nat := match mode with | .append => localFile.getD [] | .write => []
  let r := httpWriteLoop totalSize chunks base resumedBytes 0
  ⟨rangeHeader, mode, r.1, r.2.1, r.2.2⟩

/-- Observable outcome of one `_download_ftp` call. -/
structure FtpDownloadResult where
  restParam : Option Nat
  openMode : FileMode
  finalFile : List Nat
  sessionBytes : Nat
  progressEvents : List (Nat × Nat)
deriving DecidableEq

/-- The `retrbinary` callback (downloader.py lines 83-92), never paused or
stopped: every chunk is written and counted (no empty-chunk guard here). -/
def ftpWriteLoop (totalSize : Nat) :
    List (List Nat) → List Nat → Nat → Nat → List Nat × Nat × List (Nat × Nat)
  | [], file, _, sess => (file, sess, [])
  | c :: rest, file, downloaded, sess =>
    let next := ftpWriteLoop totalSize rest (file ++ c) (downloaded + c.length)
      (sess + c.length)
    (next.1, next.2.1, (downloaded + c.length, totalSize) :: next.2.2)

/-- `DownloadWorker._download_ftp` (downloader.py lines 73-93) against an ideal
restart-honouring server: `rest=downloaded_bytes or None` (so `none` when the
local file is absent or empty), `remoteSize` is what `ftp.size` reports, and
`chunks` are the data-connection chunks delivered to the callback (their
concatenation is the remote content from the restart offset on). -/
def downloadFtp (localFile : Option (List Nat)) (totalSizeField remoteSize : Nat)
    (chunks : List (List Nat)) : FtpDownloadResult :=
  let downloaded0 := match localFile with | some l => l.length | none => 0
  let totalSize := if totalSizeField ≠ 0 then totalSizeField else remoteSize
  let mode : FileMode := if downloaded0 > 0 then .append else .write
  let restParam : Option Nat := if downloaded0 ≠ 0 then some downloaded0 else none
  let base : List Nat := match mode with | .append => localFile.getD [] | .write => []
  let r := ftpWriteLoop totalSize chunks base downloaded0 0
  ⟨restParam, mode, r.1, r.2.1, r.2.2⟩

theorem httpWriteLoop_spec (totalSize : Nat) (chunks : List (List Nat))
    (file : List Nat) (downloaded sess : Nat) :
    (httpWriteLoop totalSize chunks file downloaded sess).1 = file ++ chunks.flatten
    ∧ (httpWriteLoop totalSize chunks file downloaded sess).2.1
        = sess + chunks.flatten.length := by
  induction chunks generalizing file downloaded sess with
  | nil => simp [httpWriteLoop]
  | cons c rest ih =>
    by_cases hc : c = []
    · subst hc
      simpa [httpWriteLoop] using ih file downloaded sess
    · simp only [httpWriteLoop, if_neg hc]
      obtain ⟨h1, h2⟩ := ih (file ++ c) (downloaded + c.length) (sess + c.length)
      refine ⟨?_, ?_⟩
      · simp [h1, List.append_assoc]
      · simp only [h2, List.flatten_cons, List.length_append]
        omega

theorem ftpWriteLoop_spec (totalSize : Nat) (chunks : List (List Nat))
    (file : List Nat) (downloaded sess : Nat) :
    (ftpWriteLoop totalSize chunks file downloaded sess).1 = file ++ chunks.flatten
    ∧ (ftpWriteLoop totalSize chunks file downloaded sess).2.1
        = sess + chunks.flatten.length := by
  induction chunks generalizing file downloaded sess with
  | nil => simp [ftpWriteLoop]
  | cons c rest ih =>
    simp only [ftpWriteLoop]
    obtain ⟨h1, h2⟩ := ih (file ++ c) (downloaded + c.length) (sess + c.length)
    refine ⟨?_, ?_⟩
    · simp [h1, List.append_assoc]
    · simp only [h2, List.flatten_cons, List.length_append]
      omega

end Downloader

/-- C1: for a task whose destination file already exists as a partial file of
`k` bytes with `0 < k < total`, the HTTP transfer sends `Range: bytes=k-`, the
FTP transfer passes `rest=k` to the retrieve command, both open the local file
in append mode, and on successful completion both download exactly `total - k`
further bytes (the session byte count) so the final local file is `total`
bytes long. -/
theorem C1_resume_downloads_remaining_bytes (remote localContent : List Nat)
    (chunksH chunksF : List (List Nat)) (k total totalSizeField : Nat)
    (hk : localContent.length = k) (hkpos : 0 < k) (hklt : k < total)
    (hremote : remote.length = total)
    (hch : chunksH.flatten = remote.drop k) (hcf : chunksF.flatten = remote.drop k) :
    (Downloader.downloadHttp (some localContent) totalSizeField (total - k)
        chunksH).rangeHeader = some k
    ∧ (Downloader.downloadHttp (some localContent) totalSizeField (total - k)
        chunksH).openMode = .append
    ∧ (Downloader.downloadHttp (some localContent) totalSizeField (total - k)
        chunksH).sessionBytes = total - k
    ∧ (Downloader.downloadHttp (some localContent) totalSizeField (total - k)
        chunksH).finalFile.length = total
    ∧ (Downloader.downloadFtp (some localContent) totalSizeField total
        chunksF).restParam = some k
    ∧ (Downloader.downloadFtp (some localContent) totalSizeField total
        chunksF).openMode = .append
    ∧ (Downloader.downloadFtp (some localContent) totalSizeField total
        chunksF).sessionBytes = total - k
    ∧ (Downloader.downloadFtp (some localContent) totalSizeField total
        chunksF).finalFile.length = total := by
  subst hk
  have hdrop : (remote.drop localContent.length).length = total - localContent.length := by
    simp [hremote]
  have hkne : localContent.length ≠ 0 := by omega
  refine ⟨rfl, ?_, ?_, ?_, ?_, ?_, ?_, ?_⟩
  · simp [Downloader.downloadHttp, hkpos]
  · simp only [Downloader.downloadHttp, if_pos hkpos, Option.getD_some]
    rw [(Downloader.httpWriteLoop_spec _ chunksH localContent localContent.length 0).2,
      hch, hdrop]
    omega
  · simp only [Downloader.downloadHttp, if_pos hkpos, Option.getD_some]
    rw [(Downloader.httpWriteLoop_spec _ chunksH localContent localContent.length 0).1, hch]
    simp only [List.length_append, hdrop]
    omega
  · simp [Downloader.downloadFtp, hkne]
  · simp [Downloader.downloadFtp, hkpos]
  · simp only [Downloader.downloadFtp, if_pos hkpos, Option.getD_some]
    rw [(Downloader.ftpWriteLoop_spec _ chunksF localContent localContent.length 0).2,
      hcf, hdrop]
    omega
  · simp only [Downloader.downloadFtp, if_pos hkpos, Option.getD_some]
    rw [(Downloader.ftpWriteLoop_spec _ chunksF localContent localContent.length 0).1, hcf]
    simp only [List.length_append, hdrop]
    omega

/-- C1 witness: a 5-byte remote file resumed from a 2-byte local partial. -/
theorem C1_resume_downloads_remaining_bytes_witness :
    ([9, 9] : List Nat).length = 2 ∧ 0 < 2 ∧ 2 < 5
    ∧ ([1, 2, 3, 4, 5] : List Nat).length = 5
    ∧ ([[3, 4], [5]] : List (List Nat)).flatten = ([1, 2, 3, 4, 5] : List Nat).drop 2
    ∧ ([[3, 4, 5]] : List (List Nat)).flatten = ([1, 2, 3, 4, 5] : List Nat).drop 2
    ∧ ((Downloader.downloadHttp (some [9, 9]) 0 (5 - 2) [[3, 4], [5]]).rangeHeader = some 2
       ∧ (Downloader.downloadHttp (some [9, 9]) 0 (5 - 2) [[3, 4], [5]]).openMode = .append
       ∧ (Downloader.downloadHttp (some [9, 9]) 0 (5 - 2) [[3, 4], [5]]).sessionBytes = 5 - 2
       ∧ (Downloader.downloadHttp (some [9, 9]) 0 (5 - 2) [[3, 4], [5]]).finalFile.length = 5
       ∧ (Downloader.downloadFtp (some [9, 9]) 0 5 [[3, 4, 5]]).restParam = some 2
       ∧ (Downloader.downloadFtp (some [9, 9]) 0 5 [[3, 4, 5]]).openMode = .append
       ∧ (Downloader.downloadFtp (some [9, 9]) 0 5 [[3, 4, 5]]).sessionBytes = 5 - 2
       ∧ (Downloader.downloadFtp (some [9, 9]) 0 5 [[3, 4, 5]]).finalFile.length = 5) :=
  ⟨rfl, by decide, by decide, rfl, rfl, rfl,
   C1_resume_downloads_remaining_bytes [1, 2, 3, 4, 5] [9, 9] [[3, 4], [5]] [[3, 4, 5]]
     2 5 0 rfl (by decide) (by decide) rfl rfl rfl⟩

namespace Lister

/-!
## core/lister.py — `DirectoryLister._list_http`

URLs and path fragments are character lists, so the crawler's `str`
operations (startswith, endswith, slicing, rstrip, lower) are modelled by
their `List Char` counterparts.  The network is a parameter
`fetch : url → parsed anchors of the fetched HTML body`.  Cancellation is
never requested. -/

/-- A URL or path fragment. -/
abbrev Chars := List Char

/-- One parsed `<a>` anchor: its `href` attribute and its
whitespace-stripped text. -/
structure Link where
  href : Chars
  text : Chars
deriving DecidableEq

/-- One emitted listing item (the dict of lister.py lines 102-105). -/
structure Item where
  name : Chars
  size : Chars
  type : String
  modified : Chars
  path : Chars
  fullUrl : Chars
deriving DecidableEq

/-- `str.lower()` on the ASCII link text. -/
def toLowerChars (cs : Chars) : Chars := cs.map Char.toLower

/-- `s.rstrip('/')`. -/
def rstripSlash (cs : Chars) : Chars := (cs.reverse.dropWhile (· = '/')).reverse

/-- Prefix of `p` up to and including its last `/` (empty when there is
none): the directory a plain relative reference is resolved against. -/
def upToLastSlash (p : Chars) : Chars := (p.reverse.dropWhile (· ≠ '/')).reverse

/-- Split an absolute URL after its `://`: everything up to and including the
separator, and the remainder. -/
def afterSchemeSep : Chars → Option (Chars × Chars)
  | [] => none
  | ':' :: '/' :: '/' :: rest => some ([':', '/', '/'], rest)
  | c :: rest => (afterSchemeSep rest).map (fun pr => (c :: pr.1, pr.2))

/-- `scheme://netloc` of an absolute URL: what a root-relative reference
keeps. -/
def hostPart (url : Chars) : Chars :=
  match afterSchemeSep url with
  | some pr => pr.1 ++ pr.2.takeWhile (· ≠ '/')
  | none => []

/-- `urllib.parse.urljoin(base, href)` on the reference shapes the crawler
meets: a reference carrying a scheme wins outright, a root-relative reference
keeps the base's scheme and netloc, and a plain relative reference replaces
everything after the base's last path segment. -/
def urljoin (base href : Chars) : Chars :=
  if href.contains ':' then href
  else
    match href with
    | '/' :: _ => hostPart base ++ href
    | _ => upToLastSlash base ++ href

/-- The skip conditions of lister.py line 83: no href, query- or
fragment-only link, or a parent-directory link. -/
def skipLink (link : Link) : Bool :=
  link.href.isEmpty || link.href.headD ' ' == '?' || link.href.headD ' ' == '#'
    || toLowerChars link.text == "parent directory".toList

/-- `self.base_url` (lister.py line 24): the crawl root with a trailing
slash. -/
def baseUrlOf (url : Chars) : Chars :=
  if url.getLast? = some '/' then url else url ++ ['/']

/-- The relative-path extraction of lister.py lines 91-98. -/
def relativePathOf (baseUrl fullUrl href : Chars) : Chars :=
  if baseUrl.isPrefixOf fullUrl then
    let rp := rstripSlash (fullUrl.drop baseUrl.length)
    if rp = [] then ['/'] else rp
  else
    let rp := rstripSlash href
    if rp = [] then ['/'] else rp

/-- The body of the `for link in soup.find_all('a')` loop (lister.py lines
80-110): skip the link or emit its item, then descend — only when the link is
classified as a directory and stays under the crawl root — via `recurse`,
before the next link. -/
def linkItems (recurse : Chars → List Item) (baseUrl : Chars) :
    List Link → Chars → List Item
  | [], _ => []
  | link :: rest, url =>
    (if skipLink link then []
     else
       let fullUrl := urljoin url link.href
       let isDir := link.href.getLast? == some '/'
       let item : Item := ⟨link.text, ['-'], if isDir then "Directory" else "File", ['-'],
         relativePathOf baseUrl fullUrl link.href, fullUrl⟩
       item :: (if isDir && baseUrl.isPrefixOf fullUrl then recurse fullUrl else []))
      ++ linkItems recurse baseUrl rest url

/-- `DirectoryLister._list_http` (lister.py lines 69-111).  The `Nat` is the
remaining depth budget `listing_depth - current_depth`; zero models the
depth-bound guard on line 71 returning at once. -/
def listHttpAux (fetch : Chars → List Link) (baseUrl : Chars) : Nat → Chars → List Item
  | 0, _ => []
  | r + 1, url => linkItems (listHttpAux fetch baseUrl r) baseUrl (fetch url) url

/-- The crawl entry point: `_list_http(self.url)` with `current_depth = 0`
against the configured `listing_depth`. -/
def listHttp (fetch : Chars → List Link) (listingDepth : Nat) (url : Chars) : List Item :=
  listHttpAux fetch (baseUrlOf url) listingDepth url

theorem upToLastSlash_of_endsSlash (cs : Chars) (h : cs.getLast? = some '/') :
    upToLastSlash cs = cs := by
  rw [← List.head?_reverse] at h
  unfold upToLastSlash
  cases hrev : cs.reverse with
  | nil => simp [hrev] at h
  | cons a t =>
    rw [hrev] at h
    simp only [List.head?_cons, Option.some.injEq] at h
    subst h
    rw [List.dropWhile_cons_of_neg (by simp)]
    rw [← hrev, List.reverse_reverse]

theorem baseUrlOf_of_endsSlash (cs : Chars) (h : cs.getLast? = some '/') :
    baseUrlOf cs = cs := by
  simp [baseUrlOf, h]

theorem urljoin_plain_relative (base href : Chars) (hroot : base.getLast? = some '/')
    (hc : href.contains ':' = false) (hh : href.headD ' ' ≠ '/') :
    urljoin base href = base ++ href := by
  unfold urljoin
  rw [hc]
  simp only [Bool.false_eq_true, if_false]
  cases href with
  | nil => simp [upToLastSlash_of_endsSlash base hroot]
  | cons c cs =>
    simp only [List.headD_cons] at hh
    split
    · rename_i tail heq
      injection heq with h1 h2
      exact absurd h1 hh
    · rw [upToLastSlash_of_endsSlash base hroot]

/-- The characters Python's `str.isspace` recognises in LIST output
(`str.split()` with no argument splits on runs of these). -/
def isPyWs (c : Char) : Bool :=
  c == ' ' || c == '\t' || c == '\n' || c == '\r' || c == '\x0b' || c == '\x0c'

/-- Accumulator pass for `splitWs`: `acc` holds the current word reversed. -/
def splitWsAux : List Char → List Char → List (List Char)
  | [], acc => if acc = [] then [] else [acc.reverse]
  | c :: rest, acc =>
    if isPyWs c then
      if acc = [] then splitWsAux rest [] else acc.reverse :: splitWsAux rest []
    else splitWsAux rest (c :: acc)

/-- Python `line.split()`: the maximal whitespace-free words of the line, in
order, with no empty parts. -/
def splitWs (cs : Chars) : List Chars := splitWsAux cs []

/-- One item emitted by the FTP crawl (the dict of lister.py lines 60-63;
unlike the HTTP item it has no `full_url` key). -/
structure FtpItem where
  name : Chars
  size : Chars
  type : String
  modified : Chars
  path : Chars
deriving DecidableEq

/-- The body of the `for line in lines` loop of `_list_ftp` (lister.py lines
53-64), with cancellation never requested: split the listing line, skip short
lines and the `.`/`..` entries, emit the item (name = `" ".join(parts[8:])`,
size = `parts[4]`, modified = `" ".join(parts[5:8])`, path =
`path.rstrip('/') + '/' + name`, directory iff `parts[0].startswith('d')`),
then descend — only for directory entries — via `recurse` before the next
line. -/
def ftpLineItems (recurse : Chars → List FtpItem) (path : Chars) :
    List Chars → List FtpItem
  | [] => []
  | line :: rest =>
    let parts := splitWs line
    (if parts.length < 9 ∨ parts.getD 8 [] = ['.'] ∨ parts.getD 8 [] = ['.', '.'] then []
     else
       let name := List.intercalate [' '] (parts.drop 8)
       let isDir := (parts.headD []).headD ' ' == 'd'
       let fullPath := rstripSlash path ++ '/' :: name
       let item : FtpItem := ⟨name, parts.getD 4 [], if isDir then "Directory" else "File",
         List.intercalate [' '] ((parts.drop 5).take 3), fullPath⟩
       item :: (if isDir then recurse fullPath else []))
      ++ ftpLineItems recurse path rest

/-- `DirectoryLister._list_ftp` (lister.py lines 44-64).  `dirLines` is the
network: the raw `ftp.dir` listing lines of each remote path.  The `Nat` is
the remaining depth budget `listing_depth - current_depth`; zero models the
depth-bound guard on line 46 returning at once. -/
def listFtpAux (dirLines : Chars → List Chars) : Nat → Chars → List FtpItem
  | 0, _ => []
  | r + 1, path => ftpLineItems (listFtpAux dirLines r) path (dirLines path)

/-- The FTP crawl entry point: `_list_ftp(self.parsed_url.path)` with
`current_depth = 0` against the configured `listing_depth`. -/
def listFtp (dirLines : Chars → List Chars) (listingDepth : Nat) (path : Chars) :
    List FtpItem :=
  listFtpAux dirLines listingDepth path

end Lister

/-- C8: on both crawl paths, crawling with depth limit 1 a root that contains
one subdirectory (which itself may contain anything at all — the network
functions are unconstrained below the root) emits exactly the subdirectory's
item and never the inner file: the recursive call at depth 1 hits the depth
bound and returns before touching the network.  Moreover descent only happens
into entries classified as directories (HTTP: href ending in `/`; FTP: a LIST
line whose permission flag starts with `d`): with a whole extra depth level
available, a root containing one file entry emits exactly that file item and
never descends. -/
theorem C8_depth_bound_and_directory_descent
    (fetch fetch' : Lister.Chars → List Lister.Link)
    (root s st f ft : Lister.Chars)
    (dirLines dirLines' : Lister.Chars → List Lister.Chars)
    (rootPath dl fl : Lister.Chars) (dparts fparts : List Lister.Chars)
    (hroot : root.getLast? = some '/')
    (hsskip : Lister.skipLink ⟨s, st⟩ = false)
    (hsc : s.contains ':' = false)
    (hshead : s.headD ' ' ≠ '/')
    (hsdir : s.getLast? = some '/')
    (hfskip : Lister.skipLink ⟨f, ft⟩ = false)
    (hfc : f.contains ':' = false)
    (hfhead : f.headD ' ' ≠ '/')
    (hfdir : f.getLast? ≠ some '/')
    (hfetch : fetch root = [⟨s, st⟩])
    (hfetch' : fetch' root = [⟨f, ft⟩])
    (hdl : Lister.splitWs dl = dparts)
    (hdlen : 9 ≤ dparts.length)
    (hdname1 : dparts.getD 8 [] ≠ ['.'])
    (hdname2 : dparts.getD 8 [] ≠ ['.', '.'])
    (hddir : (dparts.headD []).headD ' ' = 'd')
    (hflp : Lister.splitWs fl = fparts)
    (hflen : 9 ≤ fparts.length)
    (hfname1 : fparts.getD 8 [] ≠ ['.'])
    (hfname2 : fparts.getD 8 [] ≠ ['.', '.'])
    (hfdirn : (fparts.headD []).headD ' ' ≠ 'd')
    (hlines : dirLines rootPath = [dl])
    (hlines' : dirLines' rootPath = [fl]) :
    Lister.listHttp fetch 1 root
      = [⟨st, ['-'], "Directory", ['-'], Lister.relativePathOf root (root ++ s) s, root ++ s⟩]
    ∧ Lister.listHttp fetch' 2 root
      = [⟨ft, ['-'], "File", ['-'], Lister.relativePathOf root (root ++ f) f, root ++ f⟩]
    ∧ Lister.listFtp dirLines 1 rootPath
      = [⟨List.intercalate [' '] (dparts.drop 8), dparts.getD 4 [], "Directory",
          List.intercalate [' '] ((dparts.drop 5).take 3),
          Lister.rstripSlash rootPath ++ '/' :: List.intercalate [' '] (dparts.drop 8)⟩]
    ∧ Lister.listFtp dirLines' 2 rootPath
      = [⟨List.intercalate [' '] (fparts.drop 8), fparts.getD 4 [], "File",
          List.intercalate [' '] ((fparts.drop 5).take 3),
          Lister.rstripSlash rootPath ++ '/' :: List.intercalate [' '] (fparts.drop 8)⟩] := by
  have hbase : Lister.baseUrlOf root = root := Lister.baseUrlOf_of_endsSlash root hroot
  have hjoin_s : Lister.urljoin root s = root ++ s :=
    Lister.urljoin_plain_relative root s hroot hsc hshead
  have hjoin_f : Lister.urljoin root f = root ++ f :=
    Lister.urljoin_plain_relative root f hroot hfc hfhead
  have hpre_s : root.isPrefixOf (root ++ s) = true := by
    rw [List.isPrefixOf_iff_prefix]
    exact List.prefix_append root s
  have hpre_f : root.isPrefixOf (root ++ f) = true := by
    rw [List.isPrefixOf_iff_prefix]
    exact List.prefix_append root f
  have hsd : (s.getLast? == some '/') = true := beq_iff_eq.mpr hsdir
  have hfd : (f.getLast? == some '/') = false := beq_eq_false_iff_ne.mpr hfdir
  have hdns : ¬ (dparts.length < 9 ∨ dparts.getD 8 [] = ['.']
      ∨ dparts.getD 8 [] = ['.', '.']) := by
    push_neg
    exact ⟨by omega, hdname1, hdname2⟩
  have hfns : ¬ (fparts.length < 9 ∨ fparts.getD 8 [] = ['.']
      ∨ fparts.getD 8 [] = ['.', '.']) := by
    push_neg
    exact ⟨by omega, hfname1, hfname2⟩
  have hdd : ((dparts.headD []).headD ' ' == 'd') = true := beq_iff_eq.mpr hddir
  have hfd2 : ((fparts.headD []).headD ' ' == 'd') = false := beq_eq_false_iff_ne.mpr hfdirn
  refine ⟨?_, ?_, ?_, ?_⟩
  · simp only [Lister.listHttp, hbase, Lister.listHttpAux, hfetch, Lister.linkItems,
      hsskip, Bool.false_eq_true, if_false, hjoin_s, hsd, hpre_s, Bool.and_self,
      if_true, List.append_nil]
  · simp only [Lister.listHttp, hbase, Lister.listHttpAux, hfetch', Lister.linkItems,
      hfskip, Bool.false_eq_true, if_false, hjoin_f, hfd, hpre_f, Bool.false_and,
      List.append_nil]
  · simp only [Lister.listFtp, Lister.listFtpAux, hlines, Lister.ftpLineItems, hdl,
      if_neg hdns, hdd, if_true, List.append_nil]
  · simp only [Lister.listFtp, Lister.listFtpAux, hlines', Lister.ftpLineItems, hflp,
      if_neg hfns, hfd2, Bool.false_eq_true, if_false, List.append_nil]

/-- C8 witness: HTTP root `http://h/` containing one subdirectory `sub/`
(depth limit 1) and, for the descent conjunct, one file `file.txt` (depth
limit 2); FTP root path `/pub` whose listing holds one `drwxr-xr-x … sub`
line, and one `-rw-r--r-- … file.txt` line for the descent conjunct. -/
theorem C8_depth_bound_and_directory_descent_witness :
    ("http://h/".toList.getLast? = some '/'
     ∧ Lister.skipLink ⟨"sub/".toList, "Sub".toList⟩ = false
     ∧ "sub/".toList.contains ':' = false
     ∧ "sub/".toList.headD ' ' ≠ '/'
     ∧ "sub/".toList.getLast? = some '/'
     ∧ Lister.skipLink ⟨"file.txt".toList, "file.txt".toList⟩ = false
     ∧ "file.txt".toList.contains ':' = false
     ∧ "file.txt".toList.headD ' ' ≠ '/'
     ∧ "file.txt".toList.getLast? ≠ some '/'
     ∧ Lister.splitWs "drwxr-xr-x 2 ftp ftp 4096 Jan 01 2024 sub".toList
        = ["drwxr-xr-x".toList, "2".toList, "ftp".toList, "ftp".toList, "4096".toList,
           "Jan".toList, "01".toList, "2024".toList, "sub".toList]
     ∧ Lister.splitWs "-rw-r--r-- 1 ftp ftp 123 Jan 01 2024 file.txt".toList
        = ["-rw-r--r--".toList, "1".toList, "ftp".toList, "ftp".toList, "123".toList,
           "Jan".toList, "01".toList, "2024".toList, "file.txt".toList])
    ∧ (Lister.listHttp
        (fun u => if u = "http://h/".toList then [⟨"sub/".toList, "Sub".toList⟩] else [])
        1 "http://h/".toList
        = [⟨"Sub".toList, ['-'], "Directory", ['-'],
            Lister.relativePathOf "http://h/".toList ("http://h/".toList ++ "sub/".toList)
              "sub/".toList,
            "http://h/".toList ++ "sub/".toList⟩]
       ∧ Lister.listHttp
          (fun u => if u = "http://h/".toList
            then [⟨"file.txt".toList, "file.txt".toList⟩] else [])
          2 "http://h/".toList
          = [⟨"file.txt".toList, ['-'], "File", ['-'],
              Lister.relativePathOf "http://h/".toList
                ("http://h/".toList ++ "file.txt".toList) "file.txt".toList,
              "http://h/".toList ++ "file.txt".toList⟩]
       ∧ Lister.listFtp
          (fun p => if p = "/pub".toList
            then ["drwxr-xr-x 2 ftp ftp 4096 Jan 01 2024 sub".toList] else [])
          1 "/pub".toList
          = [⟨List.intercalate [' ']
                ((["drwxr-xr-x".toList, "2".toList, "ftp".toList, "ftp".toList,
                   "4096".toList, "Jan".toList, "01".toList, "2024".toList,
                   "sub".toList] : List Lister.Chars).drop 8),
              (["drwxr-xr-x".toList, "2".toList, "ftp".toList, "ftp".toList,
                "4096".toList, "Jan".toList, "01".toList, "2024".toList,
                "sub".toList] : List Lister.Chars).getD 4 [], "Directory",
              List.intercalate [' ']
                (((["drwxr-xr-x".toList, "2".toList, "ftp".toList, "ftp".toList,
                    "4096".toList, "Jan".toList, "01".toList, "2024".toList,
                    "sub".toList] : List Lister.Chars).drop 5).take 3),
              Lister.rstripSlash "/pub".toList ++ '/' :: List.intercalate [' ']
                ((["drwxr-xr-x".toList, "2".toList, "ftp".toList, "ftp".toList,
                   "4096".toList, "Jan".toList, "01".toList, "2024".toList,
                   "sub".toList] : List Lister.Chars).drop 8)⟩]
       ∧ Lister.listFtp
          (fun p => if p = "/pub".toList
            then ["-rw-r--r-- 1 ftp ftp 123 Jan 01 2024 file.txt".toList] else [])
          2 "/pub".toList
          = [⟨List.intercalate [' ']
                ((["-rw-r--r--".toList, "1".toList, "ftp".toList, "ftp".toList,
                   "123".toList, "Jan".toList, "01".toList, "2024".toList,
                   "file.txt".toList] : List Lister.Chars).drop 8),
              (["-rw-r--r--".toList, "1".toList, "ftp".toList, "ftp".toList,
                "123".toList, "Jan".toList, "01".toList, "2024".toList,
                "file.txt".toList] : List Lister.Chars).getD 4 [], "File",
              List.intercalate [' ']
                (((["-rw-r--r--".toList, "1".toList, "ftp".toList, "ftp".toList,
                    "123".toList, "Jan".toList, "01".toList, "2024".toList,
                    "file.txt".toList] : List Lister.Chars).drop 5).take 3),
              Lister.rstripSlash "/pub".toList ++ '/' :: List.intercalate [' ']
                ((["-rw-r--r--".toList, "1".toList, "ftp".toList, "ftp".toList,
                   "123".toList, "Jan".toList, "01".toList, "2024".toList,
                   "file.txt".toList] : List Lister.Chars).drop 8)⟩]) :=
  ⟨⟨by decide, by decide, by decide, by decide, by decide, by decide, by decide,
    by decide, by decide, by decide, by decide⟩,
   C8_depth_bound_and_directory_descent
     (fun u => if u = "http://h/".toList then [⟨"sub/".toList, "Sub".toList⟩] else [])
     (fun u => if u = "http://h/".toList then [⟨"file.txt".toList, "file.txt".toList⟩] else [])
     "http://h/".toList "sub/".toList "Sub".toList "file.txt".toList "file.txt".toList
     (fun p => if p = "/pub".toList
       then ["drwxr-xr-x 2 ftp ftp 4096 Jan 01 2024 sub".toList] else [])
     (fun p => if p = "/pub".toList
       then ["-rw-r--r-- 1 ftp ftp 123 Jan 01 2024 file.txt".toList] else [])
     "/pub".toList "drwxr-xr-x 2 ftp ftp 4096 Jan 01 2024 sub".toList
     "-rw-r--r-- 1 ftp ftp 123 Jan 01 2024 file.txt".toList
     ["drwxr-xr-x".toList, "2".toList, "ftp".toList, "ftp".toList, "4096".toList,
      "Jan".toList, "01".toList, "2024".toList, "sub".toList]
     ["-rw-r--r--".toList, "1".toList, "ftp".toList, "ftp".toList, "123".toList,
      "Jan".toList, "01".toList, "2024".toList, "file.txt".toList]
     (by decide) (by decide) (by decide) (by decide) (by decide) (by decide) (by decide)
     (by decide) (by decide) (by decide) (by decide) (by decide) (by decide) (by decide)
     (by decide) (by decide) (by decide) (by decide) (by decide) (by decide) (by decide)
     (by decide) (by decide)⟩

namespace Lister2

/-!
## src/src/core/lister.py — the cached `DirectoryLister`

This lister variant imports `DirectoryCache` and `MemoryCache` from its own
`core/cache_manager.py`, which is not among the sources; only this caller is.
`MemoryCache` is therefore modelled from the spec; the consult order of `run`
(lines 44-62) is embedded from the source.  The `if cached_data:` truthiness
tests are modelled as hit tests: the caches only ever store listings that were
cached through `run`'s `if self.use_cache and items:` guard (line 76), which
excludes empty ones. -/

/-- Modelled from the spec: the `MemoryCache` class of this variant's
`core/cache_manager.py` is missing from the sources.  Spec §4.1: the memory
tier is a bounded-size map (configurable capacity, default 50 entries) with
least-recently-used eviction when the capacity is exceeded.  `entries` keeps
the least recently used binding first, the most recent last. -/
structure MemoryCache (α : Type) where
  maxSize : Nat
  entries : List (String × α)
deriving DecidableEq

/-- `config.get('memory_cache_size', 50)` (src/src/core/lister.py line 36). -/
def memoryCacheSizeDefault : Nat := 50

/-- Modelled from the spec: a hit returns the stored value and refreshes the
binding's recency; a miss returns `none` and leaves the cache unchanged. -/
def MemoryCache.get {α : Type} (c : MemoryCache α) (k : String) :
    Option α × MemoryCache α :=
  match alookup k c.entries with
  | none => (none, c)
  | some v => (some v, { c with entries := aerase k c.entries ++ [(k, v)] })

/-- Modelled from the spec: insert or refresh the binding as most recent, and
when the capacity is exceeded evict from the least recently used end. -/
def MemoryCache.set {α : Type} (c : MemoryCache α) (k : String) (v : α) :
    MemoryCache α :=
  let es := aerase k c.entries ++ [(k, v)]
  { c with entries := if c.maxSize < es.length then es.drop (es.length - c.maxSize) else es }

/-- One memory-cache operation. -/
inductive CacheOp (α : Type) where
  | get (k : String) : CacheOp α
  | set (k : String) (v : α) : CacheOp α

/-- Apply one operation. -/
def applyOp {α : Type} (c : MemoryCache α) : CacheOp α → MemoryCache α
  | .get k => (c.get k).2
  | .set k v => c.set k v

/-- Apply a sequence of operations. -/
def applyOps {α : Type} (c : MemoryCache α) (ops : List (CacheOp α)) : MemoryCache α :=
  ops.foldl applyOp c

/-- Which tier `run` satisfied the listing from. -/
inductive CacheSource where
  | memory : CacheSource
  | disk : CacheSource
  | server : CacheSource
deriving DecidableEq

/-- Outcome of the cache-consult phase of `run`. -/
structure ConsultResult (α : Type) where
  source : CacheSource
  items : Option α
  mem : MemoryCache α
  disk : CacheMgr.FS α
deriving DecidableEq

/-- The cache-consult phase of this variant's `DirectoryLister.run`
(src/src/core/lister.py lines 44-62): with caching enabled, ask the memory
tier first; on a memory hit the disk tier is never consulted; on a memory
miss ask the disk tier and, on a disk hit, store the listing back into the
memory tier before replaying; otherwise fall through to the network fetch. -/
def cacheConsult {α : Type} (hash : String → String) (mem : MemoryCache α)
    (disk : CacheMgr.FS α) (now : Nat) (url : String) (useCache : Bool) :
    ConsultResult α :=
  if useCache then
    match mem.get url with
    | (some d, mem') => ⟨.memory, some d, mem', disk⟩
    | (none, mem') =>
      match CacheMgr.get hash disk now url with
      | (some d, disk') => ⟨.disk, some d, mem'.set url d, disk'⟩
      | (none, disk') => ⟨.server, none, mem', disk'⟩
  else ⟨.server, none, mem, disk⟩

theorem get_length_le {α : Type} (c : MemoryCache α) (k : String) :
    (c.get k).2.entries.length ≤ c.entries.length := by
  unfold MemoryCache.get
  cases h : alookup k c.entries with
  | none => simp
  | some v =>
    simp only [List.length_append, List.length_cons, List.length_nil]
    have := aerase_length_lt k c.entries v h
    omega

theorem get_maxSize {α : Type} (c : MemoryCache α) (k : String) :
    (c.get k).2.maxSize = c.maxSize := by
  unfold MemoryCache.get
  cases h : alookup k c.entries <;> simp

theorem set_length_le {α : Type} (c : MemoryCache α) (k : String) (v : α) :
    (c.set k v).entries.length ≤ c.maxSize := by
  unfold MemoryCache.set
  simp only []
  have hlen := aerase_length_le k c.entries
  split
  · rename_i hgt
    simp only [List.length_drop]
    omega
  · rename_i hle
    simp only [List.length_append, List.length_cons, List.length_nil] at hle ⊢
    omega

theorem set_maxSize {α : Type} (c : MemoryCache α) (k : String) (v : α) :
    (c.set k v).maxSize = c.maxSize := rfl

theorem applyOp_invariant {α : Type} (c : MemoryCache α) (op : CacheOp α)
    (h : c.entries.length ≤ c.maxSize) :
    (applyOp c op).entries.length ≤ (applyOp c op).maxSize
    ∧ (applyOp c op).maxSize = c.maxSize := by
  cases op with
  | get k =>
    simp only [applyOp]
    refine ⟨?_, get_maxSize c k⟩
    rw [get_maxSize c k]
    exact le_trans (get_length_le c k) h
  | set k v =>
    simp only [applyOp]
    refine ⟨?_, set_maxSize c k v⟩
    rw [set_maxSize c k v]
    exact set_length_le c k v

theorem applyOps_invariant {α : Type} (c : MemoryCache α) (ops : List (CacheOp α))
    (h : c.entries.length ≤ c.maxSize) :
    (applyOps c ops).entries.length ≤ (applyOps c ops).maxSize
    ∧ (applyOps c ops).maxSize = c.maxSize := by
  induction ops generalizing c with
  | nil => exact ⟨h, rfl⟩
  | cons op rest ih =>
    simp only [applyOps, List.foldl_cons]
    obtain ⟨h1, h2⟩ := applyOp_invariant c op h
    obtain ⟨h3, h4⟩ := ih (applyOp c op) h1
    exact ⟨h3, h4.trans h2⟩

theorem set_evicts_lru {α : Type} (c : MemoryCache α) (k0 k : String) (v0 v : α)
    (rest : List (String × α)) (hent : c.entries = (k0, v0) :: rest)
    (hfull : c.entries.length = c.maxSize) (hfresh : alookup k c.entries = none) :
    (c.set k v).entries = rest ++ [(k, v)] := by
  unfold MemoryCache.set
  rw [aerase_of_alookup_none k c.entries hfresh]
  simp only [hent]
  have hlt : c.maxSize < ((k0, v0) :: rest ++ [(k, v)]).length := by
    rw [hent] at hfull
    simp only [List.length_append, List.length_cons, List.length_nil] at hfull ⊢
    omega
  rw [if_pos hlt]
  have hone : ((k0, v0) :: rest ++ [(k, v)]).length - c.maxSize = 1 := by
    rw [hent] at hfull
    simp only [List.length_append, List.length_cons, List.length_nil] at hfull ⊢
    omega
  rw [hone]
  simp

theorem alookup_set_self {α : Type} (c : MemoryCache α) (k : String) (v : α)
    (hcap : 0 < c.maxSize) : alookup k (c.set k v).entries = some v := by
  unfold MemoryCache.set
  simp only []
  have herase : alookup k (aerase k c.entries) = none := alookup_aerase_self k c.entries
  split
  · rename_i hgt
    have hle : (aerase k c.entries ++ [(k, v)]).length - c.maxSize
        ≤ (aerase k c.entries).length := by
      simp only [List.length_append, List.length_cons, List.length_nil]
      omega
    rw [List.drop_append_of_le_length hle]
    refine alookup_append_self k v _ ?_
    exact alookup_none_of_sublist k (List.drop_sublist _ _) herase
  · exact alookup_append_self k v _ herase

theorem cacheConsult_memory_first {α : Type} (hash : String → String)
    (mem : MemoryCache α) (disk : CacheMgr.FS α) (now : Nat) (url : String) (d : α)
    (hhit : (mem.get url).1 = some d) :
    cacheConsult hash mem disk now url true = ⟨.memory, some d, (mem.get url).2, disk⟩ := by
  unfold cacheConsult
  rcases hmg : mem.get url with ⟨o, mem'⟩
  rw [hmg] at hhit
  simp only at hhit
  subst hhit
  simp

theorem cacheConsult_disk_repopulates {α : Type} (hash : String → String)
    (mem : MemoryCache α) (disk : CacheMgr.FS α) (now : Nat) (url : String) (d : α)
    (hmiss : (mem.get url).1 = none) (hdisk : (CacheMgr.get hash disk now url).1 = some d)
    (hcap : 0 < mem.maxSize) :
    (cacheConsult hash mem disk now url true).source = .disk
    ∧ alookup url (cacheConsult hash mem disk now url true).mem.entries = some d := by
  unfold cacheConsult
  rcases hmg : mem.get url with ⟨o, mem'⟩
  rw [hmg] at hmiss
  simp only at hmiss
  subst hmiss
  rcases hdg : CacheMgr.get hash disk now url with ⟨od, disk'⟩
  rw [hdg] at hdisk
  simp only at hdisk
  subst hdisk
  have hcap' : 0 < mem'.maxSize := by
    have := get_maxSize mem url
    rw [hmg] at this
    simp only at this
    omega
  exact ⟨by simp, by simpa using alookup_set_self mem' url d hcap'⟩

end Lister2

/-- C9: the memory tier of the directory cache (spec-modelled: its class is
not among the sources, only this lister variant that uses it) is a bounded map
— after any operation sequence from an empty cache of capacity `cap`
(configured default 50) it holds at most `cap` entries; when an insertion into
a full cache would exceed capacity the least-recently-used entry is evicted
while the others and the new entry remain; and in `run`, every lookup checks
the memory tier first — a memory hit returns without touching the disk tier —
while on a memory miss a disk hit stores the listing back into the memory
tier. -/
theorem C9_memory_tier_bounded_lru_and_consult_order {α : Type} (cap : Nat)
    (ops : List (Lister2.CacheOp α)) (c : Lister2.MemoryCache α) (k0 k : String)
    (v0 v : α) (rest : List (String × α)) (hash : String → String) (now : Nat)
    (url : String) (mem1 mem2 : Lister2.MemoryCache α) (disk1 disk2 : CacheMgr.FS α)
    (d1 d2 : α)
    (hent : c.entries = (k0, v0) :: rest) (hfull : c.entries.length = c.maxSize)
    (hfresh : alookup k c.entries = none)
    (hhit : (mem1.get url).1 = some d1)
    (hmiss : (mem2.get url).1 = none)
    (hdisk : (CacheMgr.get hash disk2 now url).1 = some d2)
    (hcap2 : 0 < mem2.maxSize) :
    Lister2.memoryCacheSizeDefault = 50
    ∧ (Lister2.applyOps ⟨cap, []⟩ ops).entries.length ≤ cap
    ∧ (c.set k v).entries = rest ++ [(k, v)]
    ∧ Lister2.cacheConsult hash mem1 disk1 now url true
        = ⟨.memory, some d1, (mem1.get url).2, disk1⟩
    ∧ (Lister2.cacheConsult hash mem2 disk2 now url true).source = .disk
    ∧ alookup url (Lister2.cacheConsult hash mem2 disk2 now url true).mem.entries
        = some d2 := by
  obtain ⟨hs, hd⟩ :=
    Lister2.cacheConsult_disk_repopulates hash mem2 disk2 now url d2 hmiss hdisk hcap2
  refine ⟨rfl, ?_, Lister2.set_evicts_lru c k0 k v0 v rest hent hfull hfresh,
    Lister2.cacheConsult_memory_first hash mem1 disk1 now url d1 hhit, hs, hd⟩
  have hinv := Lister2.applyOps_invariant (⟨cap, []⟩ : Lister2.MemoryCache α) ops
    (by simp)
  rw [hinv.2] at hinv
  exact hinv.1

/-- C9 witness: capacity-2 caches exercising the bound, the LRU eviction, a
memory hit and a disk-hit repopulation on concrete data. -/
theorem C9_memory_tier_bounded_lru_and_consult_order_witness :
    ((⟨2, [("a", 1), ("b", 2)]⟩ : Lister2.MemoryCache Nat).entries = [("a", 1), ("b", 2)]
     ∧ (⟨2, [("a", 1), ("b", 2)]⟩ : Lister2.MemoryCache Nat).entries.length
        = (⟨2, [("a", 1), ("b", 2)]⟩ : Lister2.MemoryCache Nat).maxSize
     ∧ alookup "c" (⟨2, [("a", 1), ("b", 2)]⟩ : Lister2.MemoryCache Nat).entries = none
     ∧ ((⟨2, [("u", 7)]⟩ : Lister2.MemoryCache Nat).get "u").1 = some 7
     ∧ ((⟨2, []⟩ : Lister2.MemoryCache Nat).get "u").1 = none
     ∧ (CacheMgr.get id [(CacheMgr.cacheKey id "u", CacheMgr.DiskFile.entry 0 "u" 9)]
          0 "u").1 = some 9
     ∧ 0 < (⟨2, []⟩ : Lister2.MemoryCache Nat).maxSize)
    ∧ (Lister2.memoryCacheSizeDefault = 50
       ∧ (Lister2.applyOps (⟨2, []⟩ : Lister2.MemoryCache Nat)
            [.set "a" 1, .set "b" 2, .set "c" 3, .get "b"]).entries.length ≤ 2
       ∧ ((⟨2, [("a", 1), ("b", 2)]⟩ : Lister2.MemoryCache Nat).set "c" 3).entries
          = [("b", 2)] ++ [("c", 3)]
       ∧ Lister2.cacheConsult id (⟨2, [("u", 7)]⟩ : Lister2.MemoryCache Nat) [] 0 "u" true
          = ⟨.memory, some 7, ((⟨2, [("u", 7)]⟩ : Lister2.MemoryCache Nat).get "u").2, []⟩
       ∧ (Lister2.cacheConsult id (⟨2, []⟩ : Lister2.MemoryCache Nat)
            [(CacheMgr.cacheKey id "u", CacheMgr.DiskFile.entry 0 "u" 9)] 0 "u"
            true).source = .disk
       ∧ alookup "u" (Lister2.cacheConsult id (⟨2, []⟩ : Lister2.MemoryCache Nat)
            [(CacheMgr.cacheKey id "u", CacheMgr.DiskFile.entry 0 "u" 9)] 0 "u"
            true).mem.entries = some 9) :=
  ⟨⟨rfl, rfl, rfl, rfl, rfl, by decide, by decide⟩,
   C9_memory_tier_bounded_lru_and_consult_order 2
     [.set "a" 1, .set "b" 2, .set "c" 3, .get "b"]
     (⟨2, [("a", 1), ("b", 2)]⟩ : Lister2.MemoryCache Nat) "a" "c" 1 3 [("b", 2)]
     id 0 "u" (⟨2, [("u", 7)]⟩ : Lister2.MemoryCache Nat)
     (⟨2, []⟩ : Lister2.MemoryCache Nat) []
     [(CacheMgr.cacheKey id "u", CacheMgr.DiskFile.entry 0 "u" 9)] 7 9
     rfl rfl rfl rfl rfl (by decide) (by decide)⟩

/-- C2: in every reachable state of the `DownloadManager` the pool of
simultaneously active workers (which contains every task in `Downloading`
state) never exceeds the configured `max_concurrent_downloads`, and
`check_queue` dispatches tasks in FIFO order: the pairs it starts workers for
are a prefix-ordered sublist of the download queue, which is itself in enqueue
order. -/
theorem C2_concurrency_cap_and_fifo (maxWorkers : Nat) (st : Downloader.MgrState)
    (h : Downloader.Reachable maxWorkers st) :
    st.activeWorkers.length ≤ maxWorkers
    ∧ (Downloader.checkQueue maxWorkers st).2.Sublist st.downloadQueue :=
  ⟨Downloader.reachable_active_le maxWorkers st h,
   Downloader.checkQueueLoop_dispatch_sublist maxWorkers st.fileSizes st.downloadQueue
     st.activeWorkers st.downloads⟩

/-- C2 witness: a state reached by enqueuing one sized selection into a fresh
manager. -/
theorem C2_concurrency_cap_and_fifo_witness :
    Downloader.Reachable 4
      (Downloader.onSizeCalcFinished 4 Downloader.initState [("u", 5)] [("u", "f")])
    ∧ ((Downloader.onSizeCalcFinished 4 Downloader.initState [("u", 5)]
          [("u", "f")]).activeWorkers.length ≤ 4
       ∧ (Downloader.checkQueue 4 (Downloader.onSizeCalcFinished 4 Downloader.initState
            [("u", 5)] [("u", "f")])).2.Sublist
          (Downloader.onSizeCalcFinished 4 Downloader.initState [("u", 5)]
            [("u", "f")]).downloadQueue) :=
  have hr : Downloader.Reachable 4
      (Downloader.onSizeCalcFinished 4 Downloader.initState [("u", 5)] [("u", "f")]) :=
    Relation.ReflTransGen.single
      (Downloader.MgrStep.sizeCalcFinished Downloader.initState [("u", 5)] [("u", "f")])
  ⟨hr, C2_concurrency_cap_and_fifo 4 _ hr⟩

/-- C3 counterexample: with the default configuration (3 attempts, 5 s delay),
a worker whose URL has the unsupported scheme `sftp` does NOT fail immediately
on the first attempt: the `ValueError` raised by the scheme dispatch is caught
by the generic retry loop, so the run performs two retry attempts with two
retry delays before the terminal error. -/
theorem C3_counterexample :
    Downloader.workerRun "u" "sftp" 3 5 (fun _ => ⟨0, none⟩)
      = [.status "u" "Downloading",
         .status "u" "Retrying (1)...", .sleep 5,
         .status "u" "Retrying (2)...", .sleep 5,
         .error "u" "Unsupported scheme: sftp", .finished "u" 0]
    ∧ Downloader.WEvent.sleep 5 ∈ Downloader.workerRun "u" "sftp" 3 5 (fun _ => ⟨0, none⟩)
    ∧ Downloader.WEvent.status "u" "Retrying (1)..."
        ∈ Downloader.workerRun "u" "sftp" 3 5 (fun _ => ⟨0, none⟩) := by decide

/-- C3 (amended): an unsupported URL scheme raises `ValueError` inside the
retry loop's `try`, which treats it like any other failure: with
`retry_attempts = n` the worker performs all `n` attempts, emitting a
`Retrying (i)...` status and sleeping `retry_delay` after each non-final
attempt, and emits the terminal error (followed by `finished` with 0 session
bytes) only on the final attempt — not immediately on the first. -/
theorem C3_unsupported_scheme_is_retried (workerId scheme : String) (n delay : Nat)
    (net : Nat → Downloader.AttemptResult) (hn : 0 < n)
    (hs : ¬ Downloader.supportedScheme scheme) :
    Downloader.workerRun workerId scheme n delay net
      = .status workerId "Downloading"
          :: Downloader.failTrace workerId delay
               (fun _ => "Unsupported scheme: " ++ scheme) n n 0
          ++ [.finished workerId 0]
    ∧ ∃ front, Downloader.workerRun workerId scheme n delay net
        = front ++ [.error workerId ("Unsupported scheme: " ++ scheme),
                    .finished workerId 0] := by
  have hout : ∀ i, i < n → Downloader.attemptOutcome scheme net i
      = ⟨0, some ("Unsupported scheme: " ++ scheme)⟩ :=
    fun i _ => Downloader.attemptOutcome_unsupported scheme net hs i
  have hloop := Downloader.runAttemptsAux_allFail workerId delay
    (Downloader.attemptOutcome scheme net) n (fun _ => 0)
    (fun _ => "Unsupported scheme: " ++ scheme) hout n 0 0 (by omega) hn
  rw [Downloader.sumBytes_const_zero] at hloop
  constructor
  · simp [Downloader.workerRun, hloop]
  · obtain ⟨front, hfront⟩ := Downloader.failTrace_ends_with_error workerId delay
      (fun _ => "Unsupported scheme: " ++ scheme) n n 0 (by omega) hn
    refine ⟨.status workerId "Downloading" :: front, ?_⟩
    simp [Downloader.workerRun, hloop, hfront]

/-- C3 witness: the amended theorem at the concrete counterexample input. -/
theorem C3_unsupported_scheme_is_retried_witness :
    0 < 3 ∧ ¬ Downloader.supportedScheme "sftp"
    ∧ (Downloader.workerRun "w" "sftp" 3 5 (fun _ => ⟨0, none⟩)
        = .status "w" "Downloading"
            :: Downloader.failTrace "w" 5 (fun _ => "Unsupported scheme: " ++ "sftp") 3 3 0
            ++ [.finished "w" 0]
       ∧ ∃ front, Downloader.workerRun "w" "sftp" 3 5 (fun _ => ⟨0, none⟩)
           = front ++ [.error "w" ("Unsupported scheme: " ++ "sftp"), .finished "w" 0]) :=
  ⟨by decide, by decide,
   C3_unsupported_scheme_is_retried "w" "sftp" 3 5 (fun _ => ⟨0, none⟩)
     (by decide) (by decide)⟩

/-- C10: when `stop()` is never called and every attempt of a supported-scheme
transfer fails, the worker emits the terminal `error` with the last failure's
message and immediately afterwards the `finished` signal carrying the session's
accumulated byte count; `_on_worker_finished` then adds exactly those bytes to
the manager's cumulative `total_bytes_downloaded`, even though the task was
already removed from the pool by the error handler. -/
theorem C10_failed_session_bytes_still_counted (workerId scheme : String) (n delay : Nat)
    (net : Nat → Downloader.AttemptResult) (b : Nat → Nat) (m : Nat → String)
    (st : Downloader.MgrState) (maxWorkers : Nat) (hn : 0 < n)
    (hs : Downloader.supportedScheme scheme)
    (hfail : ∀ i, i < n → net i = ⟨b i, some (m i)⟩) :
    (∃ front, Downloader.workerRun workerId scheme n delay net
        = front ++ [.error workerId (m (n - 1)),
                    .finished workerId (Downloader.sumBytes b n 0)])
    ∧ (Downloader.onWorkerFinished maxWorkers st workerId
         (Downloader.sumBytes b n 0)).totalBytesDownloaded
        = st.totalBytesDownloaded + Downloader.sumBytes b n 0 := by
  constructor
  · have hout : ∀ i, i < n → Downloader.attemptOutcome scheme net i = ⟨b i, some (m i)⟩ := by
      rw [Downloader.attemptOutcome_supported scheme net hs]
      exact hfail
    have hloop := Downloader.runAttemptsAux_allFail workerId delay
      (Downloader.attemptOutcome scheme net) n b m hout n 0 0 (by omega) hn
    obtain ⟨front, hfront⟩ := Downloader.failTrace_ends_with_error workerId delay
      m n n 0 (by omega) hn
    refine ⟨.status workerId "Downloading" :: front, ?_⟩
    simp [Downloader.workerRun, hloop, hfront]
  · simp only [Downloader.onWorkerFinished]
    split <;> rfl

/-- C10 witness: a three-attempt worker whose attempts fail after transferring
10, 20 and 30 bytes, feeding a fresh manager. -/
theorem C10_failed_session_bytes_still_counted_witness :
    0 < 3 ∧ Downloader.supportedScheme "http"
    ∧ ((∃ front, Downloader.workerRun "w" "http" 3 5
          (fun i => ⟨10 * (i + 1), some ("boom " ++ toString i)⟩)
          = front ++ [.error "w" ("boom " ++ toString (3 - 1)),
                      .finished "w" (Downloader.sumBytes (fun i => 10 * (i + 1)) 3 0)])
       ∧ (Downloader.onWorkerFinished 4 Downloader.initState "w"
            (Downloader.sumBytes (fun i => 10 * (i + 1)) 3 0)).totalBytesDownloaded
          = Downloader.initState.totalBytesDownloaded
            + Downloader.sumBytes (fun i => 10 * (i + 1)) 3 0) :=
  ⟨by decide, by decide,
   C10_failed_session_bytes_still_counted "w" "http" 3 5
     (fun i => ⟨10 * (i + 1), some ("boom " ++ toString i)⟩)
     (fun i => 10 * (i + 1)) (fun i => "boom " ++ toString i)
     Downloader.initState 4 (by decide) (by decide) (fun i _ => rfl)⟩

/-- C4: the claim fails — and the code contradicts its own bookkeeping — as
soon as `relativePath` contains a subdirectory component.  The download entry
records `file_path = destinationRoot + relativePath`, but the dispatcher hands
the worker `dirname(file_path)` as its base folder and the worker joins the
full `rel_path` onto it again, so the subdirectory component is duplicated: for
destination root `/downloads` and relative path `Season1/episode1.mkv` the
worker writes `/downloads/Season1/Season1/episode1.mkv`, not the recorded
`/downloads/Season1/episode1.mkv`.  (For a flat relative path the two agree,
which is why the slip goes unnoticed; the repository's own `test_fix.py`
expects a per-download `base_folder` instead of the `dirname` reconstruction.) -/
theorem C4_worker_path_duplicates_subdirectory :
    Downloader.entryFilePath "/downloads" "Season1/episode1.mkv"
        = "/downloads/Season1/episode1.mkv"
    ∧ Downloader.workerBaseFolder "/downloads" "Season1/episode1.mkv"
        = "/downloads/Season1"
    ∧ Downloader.workerLocalFilename "/downloads" "Season1/episode1.mkv"
        = "/downloads/Season1/Season1/episode1.mkv"
    ∧ Downloader.workerLocalFilename "/downloads" "Season1/episode1.mkv"
        ≠ Downloader.entryFilePath "/downloads" "Season1/episode1.mkv"
    ∧ Downloader.workerLocalFilename "/downloads" "episode1.mkv"
        = Downloader.entryFilePath "/downloads" "episode1.mkv" := by decide
